import Mathlib

/-!
Verification of the matter.js mDNS scanner/responder and TLV object schema
against its natural-language specification.

The definitions below are a shallow embedding of the TypeScript sources:
  - packages/matter.js/src/mdns/MdnsScanner.ts   (scanner)
  - MdnsServer.ts                                 (responder)
  - packages/matter.js/src/tlv/TlvWrapper.ts      (ObjectSchema)

JavaScript strings are modelled as Lean `String`; the JS string operations used
by the source (`split`, `startsWith`, `endsWith`, `includes`, `indexOf`) are
re-implemented structurally below so that all definitions evaluate by kernel
reduction.  JS `Map` objects are modelled as insertion-ordered association
lists.  Machine integers are `Nat`/`Int` with explicit 32-bit wrapping where JS
bitwise operators appear.
-/

/-! ## JS string primitives (structural re-implementations) -/

/-- Splits a character list at every occurrence of `sep`, like JS `split` with a
one-character separator: the result is never empty and keeps empty segments. -/
def splitOnChar (sep : Char) : List Char → List (List Char)
  | [] => [[]]
  | c :: cs =>
    match splitOnChar sep cs with
    | [] => if c = sep then [[], []] else [[c]]
    | h :: t => if c = sep then [] :: h :: t else (c :: h) :: t

/-- JS `String.prototype.split` with a one-character separator. -/
def strSplit (s : String) (sep : Char) : List String :=
  (splitOnChar sep s.data).map String.mk

/-- JS `String.prototype.startsWith`. -/
def strStartsWith (s p : String) : Bool :=
  p.data.isPrefixOf s.data

/-- JS `String.prototype.endsWith`. -/
def strEndsWith (s p : String) : Bool :=
  p.data.isSuffixOf s.data

/-- JS `String.prototype.includes` for a single character (used by `isIPv6`). -/
def strContainsChar (s : String) (c : Char) : Bool :=
  s.data.contains c

/-! ## JS number primitives -/

/-- Numeric value of a decimal digit character. -/
def digitVal (c : Char) : Nat := c.toNat - 48

/-- Parses a non-empty run of leading decimal digits; `none` when the first
character is not a digit (JS `parseInt` yields `NaN` then). -/
def parseDecDigits : List Char → Nat → Bool → Option Nat
  | [], acc, seen => if seen then some acc else none
  | c :: cs, acc, seen =>
    if c.isDigit then parseDecDigits cs (acc * 10 + digitVal c) true
    else if seen then some acc else none

/-- JS `parseInt(s)` (radix 10 path): skip leading whitespace, optional sign,
then the longest run of decimal digits; `none` models `NaN`. -/
def jsParseInt (s : String) : Option Int :=
  match s.data.dropWhile Char.isWhitespace with
  | [] => none
  | c :: cs =>
    if c = '-' then (parseDecDigits cs 0 false).map (fun n => -(n : Int))
    else if c = '+' then (parseDecDigits cs 0 false).map (fun n => (n : Int))
    else (parseDecDigits (c :: cs) 0 false).map (fun n => (n : Int))

/-- JS `ToInt32`: wrap an integer into the signed 32-bit range. -/
def toInt32 (n : Int) : Int := (n + 2 ^ 31) % 2 ^ 32 - 2 ^ 31

/-- JS `n >> 8` (signed 32-bit arithmetic shift right by 8). -/
def jsShr8 (n : Int) : Int := Int.fdiv (toInt32 n) 256

/-- JS `n & 0x0f` (two's-complement AND with 15). -/
def jsAnd15 (n : Int) : Int := Int.emod n 16

/-- The short discriminator derived from the long discriminator `D`,
JS `(D >> 8) & 0x0f` (MdnsScanner.ts line 820). -/
def shortFromLongDiscriminator (d : Int) : Int := jsAnd15 (jsShr8 d)

/-! ## Association lists modelling JS `Map` (insertion-ordered) -/

/-- First-match lookup in an association list. -/
def alookup {α : Type} : List (String × α) → String → Option α
  | [], _ => none
  | p :: rest, k => if p.1 = k then some p.2 else alookup rest k

/-- JS `Map.set`: overwrite in place when the key exists, else append. -/
def mapSet {α : Type} (l : List (String × α)) (k : String) (v : α) : List (String × α) :=
  if (alookup l k).isSome then l.map (fun p => if p.1 = k then (k, v) else p)
  else l ++ [(k, v)]

/-- JS `Map.delete` (the filter dropping every pair with the key, written as
structural recursion). -/
def mapDelete {α : Type} : List (String × α) → String → List (String × α)
  | [], _ => []
  | p :: rest, k => if p.1 = k then mapDelete rest k else p :: mapDelete rest k

namespace Mdns

/-! ## DNS message model (decoded form of codec/DnsCodec.ts structures) -/

/-- DNS message types used by the scanner and responder (enum `DnsMessageType`). -/
inductive DnsMessageType where
  | query
  | truncatedQuery
  | response
  | truncatedResponse
deriving DecidableEq

/-- DNS record type codes (enum `DnsRecordType`). -/
def DnsRecordType.A : Nat := 0x01
def DnsRecordType.PTR : Nat := 0x0c
def DnsRecordType.TXT : Nat := 0x10
def DnsRecordType.AAAA : Nat := 0x1c
def DnsRecordType.SRV : Nat := 0x21
def DnsRecordType.ANY : Nat := 0xff

/-- DNS record class `IN` (enum `DnsRecordClass`). -/
def DnsRecordClass.IN : Nat := 0x01

/-- Typed payload of a decoded DNS record (`DnsRecord<any>.value` in the source:
TXT carries a string array, SRV a target/port pair, A/AAAA an IP string). -/
inductive DnsValue where
  | txt (entries : List String)
  | srv (target : String) (port : Nat)
  | ip (addr : String)
  | ptr (name : String)
  | other
deriving DecidableEq

/-- A decoded DNS resource record (`DnsRecord<any>`). -/
structure DnsRecord where
  name : String
  recordType : Nat
  recordClass : Nat
  ttl : Nat
  value : DnsValue
deriving DecidableEq

/-- A DNS question (`DnsQuery`); `uniCastResponse` is the mDNS QU bit, only
meaningful on the responder's receive path. -/
structure DnsQuery where
  name : String
  recordClass : Nat
  recordType : Nat
  uniCastResponse : Bool := false
deriving DecidableEq

/-- A decoded DNS message as consumed by `handleDnsMessage`. -/
structure DnsMessage where
  messageType : DnsMessageType
  queries : List DnsQuery := []
  answers : List DnsRecord := []
  additionalRecords : List DnsRecord := []
deriving DecidableEq

/-- Modelled from the spec (MdnsConsts.ts is not under src/): operational
service name suffix. -/
def MATTER_SERVICE_QNAME : String := "_matter._tcp.local"

/-- Modelled from the spec (MdnsConsts.ts is not under src/): commissionable
service name suffix. -/
def MATTER_COMMISSION_SERVICE_QNAME : String := "_matterc._udp.local"

/-- Modelled from the spec (DnsCodec.ts is not under src/): maximum mDNS
message size in bytes. -/
def MAX_MDNS_MESSAGE_SIZE : Nat := 1500

/-! ## Scanner data model (MdnsScanner.ts) -/

/-- The recognized TXT keys (`DiscoveryData` in common/Scanner.ts): `none`
models an absent key of the parsed JS object. -/
structure DiscoveryData where
  SII : Option Int := none
  SAI : Option Int := none
  SAT : Option Int := none
  T : Option Int := none
  D : Option Int := none
  CM : Option Int := none
  DT : Option Int := none
  PH : Option Int := none
  ICD : Option Int := none
  VP : Option String := none
  DN : Option String := none
  RI : Option String := none
  PI : Option String := none
deriving DecidableEq

/-- An IP/port cache entry with expiry (`MatterServerRecordWithExpire`). -/
structure MatterServerRecordWithExpire where
  ip : String
  port : Nat
  expires : Nat
deriving DecidableEq

/-- Operational cache entry (`OperationalDeviceRecordWithExpire`); `addresses`
is a JS `Map` keyed by IP string. -/
structure OperationalDeviceRecord where
  deviceIdentifier : String
  data : DiscoveryData := {}
  addresses : List (String × MatterServerRecordWithExpire) := []
  expires : Nat
deriving DecidableEq

/-- Commissionable cache entry (`CommissionableDeviceRecordWithExpire`).
`SD`, `V`, `P` are the derived fields the scanner adds after TXT parsing. -/
structure CommissionableDeviceRecord where
  deviceIdentifier : String := ""
  instanceId : String := ""
  data : DiscoveryData := {}
  SD : Option Int := none
  V : Option Int := none
  P : Option Int := none
  addresses : List (String × MatterServerRecordWithExpire) := []
  expires : Nat := 0
deriving DecidableEq

/-- One entry of the `activeAnnounceQueries` map. -/
structure ActiveQuery where
  queries : List DnsQuery
  answers : List DnsRecord
deriving DecidableEq

/-- A registered waiter (`recordWaiters` entry); the promise resolver is
modelled through the `ScanEvent` log below, the timer by `hasTimer`. -/
structure Waiter where
  hasTimer : Bool
  resolveOnUpdatedRecords : Bool
deriving DecidableEq

/-- Observable promise resolutions (a waiter's `resolver()` being called). -/
inductive ScanEvent where
  | waiterResolved (queryId : String)
deriving DecidableEq

/-- The mutable fields of `MdnsScanner`.  `queryTimerDelayMs` is the duration
of the currently started `queryTimer` (in milliseconds), `events` the log of
resolver calls. -/
structure ScannerState where
  activeAnnounceQueries : List (String × ActiveQuery) := []
  queryTimerDelayMs : Option ℚ := none
  nextAnnounceIntervalSeconds : ℚ := 3 / 2
  operationalDeviceRecords : List (String × OperationalDeviceRecord) := []
  commissionableDeviceRecords : List (String × CommissionableDeviceRecord) := []
  recordWaiters : List (String × Waiter) := []
  closing : Bool := false
  enableIpv4 : Bool := false
  events : List ScanEvent := []
deriving DecidableEq

/-- `START_ANNOUNCE_INTERVAL_SECONDS` (1.5 s). -/
def START_ANNOUNCE_INTERVAL_SECONDS : ℚ := 3 / 2

/-! ## TXT record parsing (`parseTxtRecord`, `parseCommissionableTxtRecord`) -/

/-- One iteration of the `parseTxtRecord` loop: split `item` at `"="`, keep the
first two parts as key and value, store recognized integer keys via `parseInt`
(skipping `NaN`) and recognized string keys verbatim. -/
def applyTxtItem (acc : DiscoveryData) (item : String) : DiscoveryData :=
  match (strSplit item '=').get? 0, (strSplit item '=').get? 1 with
  | some key, some value =>
    if key = "SII" then match jsParseInt value with | none => acc | some n => { acc with SII := some n }
    else if key = "SAI" then match jsParseInt value with | none => acc | some n => { acc with SAI := some n }
    else if key = "SAT" then match jsParseInt value with | none => acc | some n => { acc with SAT := some n }
    else if key = "T" then match jsParseInt value with | none => acc | some n => { acc with T := some n }
    else if key = "D" then match jsParseInt value with | none => acc | some n => { acc with D := some n }
    else if key = "CM" then match jsParseInt value with | none => acc | some n => { acc with CM := some n }
    else if key = "DT" then match jsParseInt value with | none => acc | some n => { acc with DT := some n }
    else if key = "PH" then match jsParseInt value with | none => acc | some n => { acc with PH := some n }
    else if key = "ICD" then match jsParseInt value with | none => acc | some n => { acc with ICD := some n }
    else if key = "VP" then { acc with VP := some value }
    else if key = "DN" then { acc with DN := some value }
    else if key = "RI" then { acc with RI := some value }
    else if key = "PI" then { acc with PI := some value }
    else acc
  | _, _ => acc

/-- `parseTxtRecord`: fold the key=value items of a TXT value; a non-array
value yields the empty object. -/
def parseTxtRecord (value : DnsValue) : DiscoveryData :=
  match value with
  | .txt entries => entries.foldl applyTxtItem {}
  | _ => {}

/-- `parseCommissionableTxtRecord`: non-array values are rejected, and the
required keys `D` and `CM` must both have parsed, else the record is dropped. -/
def parseCommissionableTxtRecord (record : DnsRecord) (now : Nat) :
    Option CommissionableDeviceRecord :=
  match record.value with
  | .txt _ =>
    let d := parseTxtRecord record.value
    if d.D = none ∨ d.CM = none then none
    else some { addresses := [], expires := now + record.ttl * 1000, data := d }
  | _ => none

/-- `extractInstanceId`: the substring before the first `"."` (the whole
string when there is none). -/
def extractInstanceId (instanceName : String) : String :=
  (strSplit instanceName '.').headD instanceName

/-! ## Active query management (`setQueryRecords`, `sendQueries` scheduling) -/

/-- The tuple equality used by `setQueryRecords` to detect already-known
queries: name, record type and record class all equal. -/
def queryMatches (a b : DnsQuery) : Bool :=
  a.name = b.name && a.recordType = b.recordType && a.recordClass = b.recordClass

/-- `setQueryRecords(queryId, queries, answers)`: when the queryId exists and
every new query tuple is already present, nothing changes; otherwise the entry
is overwritten with the new `queries` (answers appended to the existing ones),
the announce interval resets to 1.5 s and an immediate send is scheduled. -/
def setQueryRecords (st : ScannerState) (queryId : String) (queries : List DnsQuery)
    (answers : List DnsRecord := []) : ScannerState :=
  match alookup st.activeAnnounceQueries queryId with
  | some activeExistingQuery =>
    let newQueries := queries.filter
      (fun query => !(activeExistingQuery.queries.any (fun e => queryMatches e query)))
    if newQueries = [] then st
    else
      { st with
        activeAnnounceQueries := mapSet st.activeAnnounceQueries queryId
          ⟨queries, activeExistingQuery.answers ++ answers⟩
        nextAnnounceIntervalSeconds := START_ANNOUNCE_INTERVAL_SECONDS
        queryTimerDelayMs := some 0 }
  | none =>
    { st with
      activeAnnounceQueries := mapSet st.activeAnnounceQueries queryId ⟨queries, answers⟩
      nextAnnounceIntervalSeconds := START_ANNOUNCE_INTERVAL_SECONDS
      queryTimerDelayMs := some 0 }

/-- The scheduling effect of one `sendQueries` cycle: the timer restarts with
the current interval (in ms), then the stored interval doubles, capped at one
hour. -/
def sendQueriesSchedule (st : ScannerState) : ScannerState :=
  { st with
    queryTimerDelayMs := some (st.nextAnnounceIntervalSeconds * 1000)
    nextAnnounceIntervalSeconds := min (st.nextAnnounceIntervalSeconds * 2) (60 * 60) }

/-- `getActiveQueryEarlierAnswers`: all known answers of all active queries. -/
def getActiveQueryEarlierAnswers (st : ScannerState) : List DnsRecord :=
  (st.activeAnnounceQueries.map (fun p => p.2.answers)).flatten

/-- `removeQuery`: drop the active query; when it was the last one the announce
timer stops and the interval resets. -/
def removeQuery (st : ScannerState) (queryId : String) : ScannerState :=
  let st := { st with activeAnnounceQueries := mapDelete st.activeAnnounceQueries queryId }
  if st.activeAnnounceQueries = [] then
    { st with queryTimerDelayMs := none,
              nextAnnounceIntervalSeconds := START_ANNOUNCE_INTERVAL_SECONDS }
  else st

/-! ## Waiter coordination -/

/-- `registerWaiterPromise`: store a waiter for `queryId`; `hasTimer` records
whether a timeout was supplied. -/
def registerWaiterPromise (st : ScannerState) (queryId : String) (hasTimer : Bool)
    (resolveOnUpdatedRecords : Bool := true) : ScannerState :=
  { st with recordWaiters := mapSet st.recordWaiters queryId ⟨hasTimer, resolveOnUpdatedRecords⟩ }

/-- `finishWaiter(queryId, resolvePromise, isUpdatedRecord)`: remove the waiter
and stop its timer; call its resolver when `resolvePromise`; keep it untouched
when it only resolves on new records and this is an update. -/
def finishWaiter (st : ScannerState) (queryId : String) (resolvePromise : Bool)
    (isUpdatedRecord : Bool := false) : ScannerState :=
  match alookup st.recordWaiters queryId with
  | none => st
  | some waiter =>
    if isUpdatedRecord && !waiter.resolveOnUpdatedRecords then st
    else
      { st with
        recordWaiters := mapDelete st.recordWaiters queryId
        events := st.events ++ (if resolvePromise then [.waiterResolved queryId] else []) }

/-- `hasWaiter`. -/
def hasWaiter (st : ScannerState) (queryId : String) : Bool :=
  (alookup st.recordWaiters queryId).isSome

/-! ## Address sorting (`sortServerEntries`) -/

/-- Modelled from the spec (util/Ip.ts is not under src/): an IP string is IPv6
iff it contains a colon. -/
def isIPv6 (ip : String) : Bool := strContainsChar ip ':'

/-- The comparator passed to `entries.sort` in `sortServerEntries`. -/
def serverEntryCompare (a b : MatterServerRecordWithExpire) : Int :=
  let aIsIPv6 := isIPv6 a.ip
  let bIsIPv6 := isIPv6 b.ip
  if aIsIPv6 && !bIsIPv6 then -1
  else if !aIsIPv6 && bIsIPv6 then 1
  else if aIsIPv6 && bIsIPv6 then
    if strStartsWith a.ip "fd" && !(strStartsWith b.ip "fd") then -1
    else if !(strStartsWith a.ip "fd") && strStartsWith b.ip "fd" then 1
    else if strStartsWith a.ip "fe80:" && !(strStartsWith b.ip "fe80:") then -1
    else if !(strStartsWith a.ip "fe80:") && strStartsWith b.ip "fe80:" then 1
    else 0
  else 0

/-- Stable insertion for `sortServerEntries`: `x` moves past exactly the
elements the comparator orders strictly before it. -/
def sortInsert (x : MatterServerRecordWithExpire) :
    List MatterServerRecordWithExpire → List MatterServerRecordWithExpire
  | [] => [x]
  | y :: ys => if serverEntryCompare y x < 0 then y :: sortInsert x ys else x :: y :: ys

/-- `sortServerEntries`: JS `Array.prototype.sort` is stable (ES2019), so the
call is modelled as a stable insertion sort under `serverEntryCompare`. -/
def sortServerEntries :
    List MatterServerRecordWithExpire → List MatterServerRecordWithExpire
  | [] => []
  | x :: xs => sortInsert x (sortServerEntries xs)

/-- A returned server address (`ServerAddressIp`, without the constant
`type: "udp"` tag). -/
structure ServerAddressIp where
  ip : String
  port : Nat
deriving DecidableEq

/-! ## Cache read-out -/

/-- Result shape of `getOperationalDeviceRecords` (an `OperationalDevice`
restricted to the fields the claims mention). -/
structure OperationalDevice where
  deviceIdentifier : String
  addresses : List ServerAddressIp
deriving DecidableEq

/-- `getOperationalDeviceRecords`: `none` when unknown or when the address set
is empty, else the entry with its addresses sorted. -/
def getOperationalDeviceRecords (st : ScannerState) (deviceMatterQname : String) :
    Option OperationalDevice :=
  match alookup st.operationalDeviceRecords deviceMatterQname with
  | none => none
  | some device =>
    if device.addresses = [] then none
    else some ⟨device.deviceIdentifier,
      (sortServerEntries (device.addresses.map (fun p => p.2))).map (fun e => ⟨e.ip, e.port⟩)⟩

/-! ## Commissionable identifiers and query names -/

/-- The `CommissionableDeviceIdentifiers` union type; `anyCommissionable`
models the empty object `{}`. -/
inductive CommissionableDeviceIdentifiers where
  | instanceId (s : String)
  | longDiscriminator (d : Int)
  | shortDiscriminator (d : Int)
  | vendorId (v : Int)
  | deviceType (dt : Int)
  | productId (p : Int)
  | anyCommissionable
deriving DecidableEq

/-- Modelled from the spec (MdnsConsts.ts is not under src/): instance qname. -/
def getDeviceInstanceQname (instanceId : String) : String :=
  instanceId ++ "._matterc._udp.local"

/-- Modelled from the spec: long-discriminator subtype qname. -/
def getLongDiscriminatorQname (d : Int) : String :=
  "_L" ++ toString d ++ "._sub._matterc._udp.local"

/-- Modelled from the spec: short-discriminator subtype qname. -/
def getShortDiscriminatorQname (d : Int) : String :=
  "_S" ++ toString d ++ "._sub._matterc._udp.local"

/-- Modelled from the spec: vendor subtype qname. -/
def getVendorQname (v : Int) : String :=
  "_V" ++ toString v ++ "._sub._matterc._udp.local"

/-- Modelled from the spec: device-type subtype qname. -/
def getDeviceTypeQname (dt : Int) : String :=
  "_T" ++ toString dt ++ "._sub._matterc._udp.local"

/-- Modelled from the spec: commissioning-mode wildcard qname. -/
def getCommissioningModeQname : String :=
  "_CM._sub._matterc._udp.local"

/-- `buildCommissionableQueryIdentifier`. -/
def buildCommissionableQueryIdentifier : CommissionableDeviceIdentifiers → String
  | .instanceId s => getDeviceInstanceQname s
  | .longDiscriminator d => getLongDiscriminatorQname d
  | .shortDiscriminator d => getShortDiscriminatorQname d
  | .vendorId v => getVendorQname v
  | .deviceType dt => getDeviceTypeQname dt
  | .productId p => "_P" ++ toString p
  | .anyCommissionable => getCommissioningModeQname

/-- `findCommissionableQueryIdentifier`: try instanceId, long discriminator,
short discriminator, vendor, device type, product, commissioning mode, in that
order, returning the first with an active query.  (The `closing` guard of the
source is enforced by `handleDnsMessage` before any caller is reached.) -/
def findCommissionableQueryIdentifier (st : ScannerState) (instanceName : String)
    (record : CommissionableDeviceRecord) : Option String :=
  let instanceQueryId := buildCommissionableQueryIdentifier (.instanceId (extractInstanceId instanceName))
  if (alookup st.activeAnnounceQueries instanceQueryId).isSome then some instanceQueryId
  else
  let longQueryId := buildCommissionableQueryIdentifier (.longDiscriminator (record.data.D.getD 0))
  if (alookup st.activeAnnounceQueries longQueryId).isSome then some longQueryId
  else
  let shortQueryId := buildCommissionableQueryIdentifier (.shortDiscriminator (record.SD.getD 0))
  if (alookup st.activeAnnounceQueries shortQueryId).isSome then some shortQueryId
  else
  let afterVendor :=
    match record.V with
    | some v =>
      let vendorQueryId := buildCommissionableQueryIdentifier (.vendorId v)
      if (alookup st.activeAnnounceQueries vendorQueryId).isSome then some vendorQueryId else none
    | none => none
  match afterVendor with
  | some q => some q
  | none =>
  let afterDeviceType :=
    match record.data.DT with
    | some dt =>
      let dtQueryId := buildCommissionableQueryIdentifier (.deviceType dt)
      if (alookup st.activeAnnounceQueries dtQueryId).isSome then some dtQueryId else none
    | none => none
  match afterDeviceType with
  | some q => some q
  | none =>
  let afterProduct :=
    match record.P with
    | some p =>
      let pQueryId := buildCommissionableQueryIdentifier (.productId p)
      if (alookup st.activeAnnounceQueries pQueryId).isSome then some pQueryId else none
    | none => none
  match afterProduct with
  | some q => some q
  | none =>
    let cmQueryId := buildCommissionableQueryIdentifier .anyCommissionable
    if (alookup st.activeAnnounceQueries cmQueryId).isSome then some cmQueryId else none

/-- `getCommissionableQueryRecords`: the PTR questions sent for an identifier. -/
def getCommissionableQueryRecords (identifier : CommissionableDeviceIdentifiers) :
    List DnsQuery :=
  let tail :=
    match identifier with
    | .instanceId s => [getDeviceInstanceQname s]
    | .longDiscriminator d => [getLongDiscriminatorQname d]
    | .shortDiscriminator d => [getShortDiscriminatorQname d]
    | .vendorId v => [getVendorQname v]
    | .deviceType dt => [getDeviceTypeQname dt]
    | _ => [getCommissioningModeQname]
  (MATTER_COMMISSION_SERVICE_QNAME :: tail).map
    (fun name => ⟨name, DnsRecordClass.IN, DnsRecordType.PTR, false⟩)

/-! ## Message ingestion -/

/-- `handleIpRecords`: keep A records only when IPv4 is enabled, AAAA always,
restricted to the SRV `target`; link-local addresses get the interface as zone
suffix.  Returns (ip, ttl) pairs. -/
def handleIpRecords (enableIpv4 : Bool) (answers : List DnsRecord) (target : String)
    (netInterface : String) : List (String × Nat) :=
  let ipRecords := answers.filter (fun r =>
    ((r.recordType = DnsRecordType.A && enableIpv4) || r.recordType = DnsRecordType.AAAA)
      && r.name = target)
  ipRecords.map (fun r =>
    let v := match r.value with | .ip addr => addr | _ => ""
    (if strStartsWith v "fe80::" then v ++ "%" ++ netInterface else v, r.ttl))

/-- The JS object-spread merge `{...device, ...txtData}` for TXT data: a key
present in the new data overrides, an absent key keeps the old value. -/
def mergeDiscoveryData (old new : DiscoveryData) : DiscoveryData where
  SII := new.SII.or old.SII
  SAI := new.SAI.or old.SAI
  SAT := new.SAT.or old.SAT
  T := new.T.or old.T
  D := new.D.or old.D
  CM := new.CM.or old.CM
  DT := new.DT.or old.DT
  PH := new.PH.or old.PH
  ICD := new.ICD.or old.ICD
  VP := new.VP.or old.VP
  DN := new.DN.or old.DN
  RI := new.RI.or old.RI
  PI := new.PI.or old.PI

/-- `handleOperationalTxtRecord`: a `ttl == 0` goodbye deletes the entry; a
non-array value is ignored; otherwise the entry is upserted with fresh expiry
and the parsed TXT data spread over the existing fields. -/
def handleOperationalTxtRecord (st : ScannerState) (record : DnsRecord) (now : Nat) :
    ScannerState :=
  if record.ttl = 0 then
    { st with operationalDeviceRecords := mapDelete st.operationalDeviceRecords record.name }
  else
    match record.value with
    | .txt _ =>
      let txtData := parseTxtRecord record.value
      let device : OperationalDeviceRecord :=
        match alookup st.operationalDeviceRecords record.name with
        | some device =>
          { device with
            expires := now + record.ttl * 1000
            data := mergeDiscoveryData device.data txtData }
        | none =>
          { deviceIdentifier := record.name
            addresses := []
            expires := now + record.ttl * 1000
            data := txtData }
      { st with operationalDeviceRecords := mapSet st.operationalDeviceRecords record.name device }
    | _ => st

/-- The loop over `ips` shared by the operational and commissionable SRV
handlers: a zero-ttl IP is deleted, otherwise upserted with fresh expiry (the
port of an already-known IP is kept). -/
def applyIpRecords (addresses : List (String × MatterServerRecordWithExpire))
    (ips : List (String × Nat)) (port : Nat) (now : Nat) :
    List (String × MatterServerRecordWithExpire) :=
  ips.foldl (fun acc p =>
    if p.2 = 0 then mapDelete acc p.1
    else
      let matterServer := (alookup acc p.1).getD ⟨p.1, port, 0⟩
      mapSet acc p.1 { matterServer with expires := now + p.2 * 1000 }) addresses

/-- `handleOperationalSrvRecord`: goodbye deletes the entry; otherwise collect
the target's A/AAAA records from this message and the known prior answers,
update the address map, and either request missing IPs (when empty and a
waiter exists) or finish the waiter. -/
def handleOperationalSrvRecord (st : ScannerState) (record : DnsRecord)
    (answers formerAnswers : List DnsRecord) (netInterface : String) (now : Nat) :
    ScannerState :=
  let matterName := record.name
  if record.ttl = 0 then
    { st with operationalDeviceRecords := mapDelete st.operationalDeviceRecords matterName }
  else
    let target := match record.value with | .srv t _ => t | _ => ""
    let port := match record.value with | .srv _ p => p | _ => 0
    let ips := handleIpRecords st.enableIpv4 (answers ++ formerAnswers) target netInterface
    let deviceExisted := (alookup st.operationalDeviceRecords matterName).isSome
    let device : OperationalDeviceRecord :=
      (alookup st.operationalDeviceRecords matterName).getD
        { deviceIdentifier := matterName, addresses := [], expires := now + record.ttl * 1000 }
    let addresses := applyIpRecords device.addresses ips port now
    let st :=
      if ips ≠ [] then
        { st with operationalDeviceRecords :=
            mapSet st.operationalDeviceRecords matterName { device with addresses := addresses } }
      else st
    if addresses = [] ∧ hasWaiter st matterName then
      let queries : List DnsQuery :=
        ⟨target, DnsRecordClass.IN, DnsRecordType.AAAA, false⟩ ::
          (if st.enableIpv4 then [⟨target, DnsRecordClass.IN, DnsRecordType.A, false⟩] else [])
      setQueryRecords st matterName queries answers
    else if addresses ≠ [] then
      finishWaiter st matterName true deviceExisted
    else st

/-- Record selector for the operational TXT lookup in
`handleOperationalRecords`. -/
def isOperationalTxt (r : DnsRecord) : Bool :=
  r.recordType = DnsRecordType.TXT && strEndsWith r.name MATTER_SERVICE_QNAME

/-- Record selector for the operational SRV lookup. -/
def isOperationalSrv (r : DnsRecord) : Bool :=
  r.recordType = DnsRecordType.SRV && strEndsWith r.name MATTER_SERVICE_QNAME

/-- `handleOperationalRecords`: handle only the FIRST operational TXT record of
the message and the FIRST operational SRV record (searching the message's
answers, then the known prior answers).  Returns the new state and whether any
operational record was handled. -/
def handleOperationalRecords (st : ScannerState) (answers formerAnswers : List DnsRecord)
    (netInterface : String) (now : Nat) : ScannerState × Bool :=
  let step1 :=
    match answers.find? isOperationalTxt with
    | some r => (handleOperationalTxtRecord st r now, true)
    | none => (st, false)
  match (answers.find? isOperationalSrv).or (formerAnswers.find? isOperationalSrv) with
  | some r => (handleOperationalSrvRecord step1.1 r answers formerAnswers netInterface now, true)
  | none => step1

/-- One iteration of the commissionable TXT loop: goodbye deletes; a dropped
parse leaves everything unchanged; otherwise derive `instanceId`,
`deviceIdentifier`, `SD` (from `D` when unset, which is always the case since
`SD` is not among the parsed keys) and `V`/`P` from `VP`, keep the stored
addresses when the entry existed, and store it.  The returned flag tells
whether the name joined `queryMissingDataForInstances`. -/
def handleCommissionableTxtRecord (st : ScannerState) (record : DnsRecord) (now : Nat) :
    ScannerState × Bool :=
  if record.ttl = 0 then
    ({ st with commissionableDeviceRecords := mapDelete st.commissionableDeviceRecords record.name },
     false)
  else
    match parseCommissionableTxtRecord record now with
    | none => (st, false)
    | some parsed =>
      let parsed := { parsed with
        instanceId := extractInstanceId record.name
        deviceIdentifier := extractInstanceId record.name }
      let parsed :=
        if parsed.data.D ≠ none ∧ parsed.SD = none then
          { parsed with SD := parsed.data.D.map shortFromLongDiscriminator }
        else parsed
      let parsed :=
        match parsed.data.VP with
        | some vp =>
          let vpParts := strSplit vp '+'
          { parsed with
            V := (vpParts.get? 0).bind jsParseInt
            P := (vpParts.get? 1).bind jsParseInt }
        | none => parsed
      match alookup st.commissionableDeviceRecords record.name with
      | none =>
        let newRecords := mapSet st.commissionableDeviceRecords record.name parsed
        ({ st with commissionableDeviceRecords := newRecords }, true)
      | some storedRecord =>
        let newRecords := mapSet st.commissionableDeviceRecords record.name
          { parsed with addresses := storedRecord.addresses }
        ({ st with commissionableDeviceRecords := newRecords }, false)

/-- One iteration of the commissionable SRV loop (state and
`queryMissingDataForInstances`): records without a stored TXT entry are
skipped, goodbyes delete the entry, otherwise the address map is refreshed; an
empty address set triggers an IP query, a non-empty one finishes the matching
waiter and clears the missing-data mark. -/
def handleCommissionableSrvRecord (st : ScannerState) (missing : List String)
    (record : DnsRecord) (answers formerAnswers : List DnsRecord)
    (netInterface : String) (now : Nat) : ScannerState × List String :=
  match alookup st.commissionableDeviceRecords record.name with
  | none => (st, missing)
  | some storedRecord =>
    if record.ttl = 0 then
      let newRecords := mapDelete st.commissionableDeviceRecords record.name
      ({ st with commissionableDeviceRecords := newRecords }, missing)
    else
      let target := match record.value with | .srv t _ => t | _ => ""
      let port := match record.value with | .srv _ p => p | _ => 0
      let recordExisting := storedRecord.addresses ≠ []
      let ips := handleIpRecords st.enableIpv4 (answers ++ formerAnswers) target netInterface
      let storedRecord :=
        { storedRecord with addresses := applyIpRecords storedRecord.addresses ips port now }
      let newRecords := mapSet st.commissionableDeviceRecords record.name storedRecord
      let st := { st with commissionableDeviceRecords := newRecords }
      if storedRecord.addresses = [] then
        match findCommissionableQueryIdentifier st "" storedRecord with
        | none => (st, missing)
        | some queryId =>
          let queries : List DnsQuery :=
            ⟨target, DnsRecordClass.IN, DnsRecordType.AAAA, false⟩ ::
              (if st.enableIpv4 then [⟨target, DnsRecordClass.IN, DnsRecordType.A, false⟩] else [])
          (setQueryRecords st queryId queries answers, missing)
      else
        match findCommissionableQueryIdentifier st record.name storedRecord with
        | none => (st, missing)
        | some queryId =>
          (finishWaiter st queryId true recordExisting,
           missing.filter (fun n => n ≠ record.name))

/-- `handleCommissionableRecords`: process all commissionable TXT records, then
all commissionable SRV records, then query for missing data of entries that
only produced TXT records (restricting to the message when it has matching
records, else to the known prior answers). -/
def handleCommissionableRecords (st : ScannerState) (answers formerAnswers : List DnsRecord)
    (netInterface : String) (now : Nat) : ScannerState :=
  let fromAnswers := answers.filter (fun r => strEndsWith r.name MATTER_COMMISSION_SERVICE_QNAME)
  let commissionableRecords :=
    if fromAnswers = [] then
      formerAnswers.filter (fun r => strEndsWith r.name MATTER_COMMISSION_SERVICE_QNAME)
    else fromAnswers
  if commissionableRecords = [] then st
  else
    let txtRecords := commissionableRecords.filter (fun r => r.recordType = DnsRecordType.TXT)
    let afterTxt := txtRecords.foldl (fun acc r =>
      let step := handleCommissionableTxtRecord acc.1 r now
      (step.1,
       if step.2 then (if r.name ∈ acc.2 then acc.2 else acc.2 ++ [r.name]) else acc.2))
      ((st, []) : ScannerState × List String)
    let srvRecords := commissionableRecords.filter (fun r => r.recordType = DnsRecordType.SRV)
    let afterSrv := srvRecords.foldl (fun acc r =>
      handleCommissionableSrvRecord acc.1 acc.2 r answers formerAnswers netInterface now) afterTxt
    afterSrv.2.foldl (fun st name =>
      match alookup st.commissionableDeviceRecords name with
      | none => st
      | some storedRecord =>
        match findCommissionableQueryIdentifier st "" storedRecord with
        | none => st
        | some queryId =>
          setQueryRecords st queryId
            [⟨name, DnsRecordClass.IN, DnsRecordType.ANY, false⟩] answers) afterSrv.1

/-- `handleDnsMessage` (post-decode): ignore messages while closing and
non-response messages; merge answers and additional records; run the
operational path and, only when it handled nothing, the commissionable path. -/
def handleDnsMessage (st : ScannerState) (message : DnsMessage) (netInterface : String)
    (now : Nat) : ScannerState :=
  if st.closing then st
  else if message.messageType ≠ DnsMessageType.response
      ∧ message.messageType ≠ DnsMessageType.truncatedResponse then st
  else
    let answers := message.answers ++ message.additionalRecords
    let step := handleOperationalRecords st answers (getActiveQueryEarlierAnswers st) netInterface now
    if step.2 then step.1
    else handleCommissionableRecords step.1 answers (getActiveQueryEarlierAnswers step.1)
      netInterface now

/-! ## Close and the discovery entry points -/

/-- Errors thrown synchronously by the scanner API. -/
inductive ScanError where
  | implementationError (msg : String)
deriving DecidableEq

/-- The per-waiter loop of `close`: for each key present at the start, finish
the waiter, resolving its promise exactly when it currently has a timer. -/
def closeWaitersLoop : List String → ScannerState → ScannerState
  | [], st => st
  | queryId :: rest, st =>
    closeWaitersLoop rest
      (finishWaiter st queryId (((alookup st.recordWaiters queryId).map Waiter.hasTimer).getD false) false)

/-- `close()`: set the closing flag, stop the timers, then finish every
outstanding waiter, resolving exactly those that have a timer. -/
def close (st : ScannerState) : ScannerState :=
  let st := { st with closing := true, queryTimerDelayMs := none }
  closeWaitersLoop (st.recordWaiters.map (fun p => p.1)) st

/-- Uppercase hex digit. -/
def hexDigit (n : Nat) : Char :=
  if n < 10 then Char.ofNat (48 + n) else Char.ofNat (55 + n)

/-- `ByteArray.toHex().toUpperCase()`: two uppercase hex digits per byte. -/
def bytesToHexUpper (bytes : List Nat) : String :=
  String.mk ((bytes.map (fun b => [hexDigit (b / 16 % 16), hexDigit (b % 16)])).flatten)

/-- `NodeId.toHexString`: 16 uppercase hex digits. -/
def natToHex16 (v : Nat) : String :=
  String.mk ((List.range 16).map (fun i => hexDigit (v / 16 ^ (15 - i) % 16)))

/-- `createOperationalMatterQName` with `getDeviceMatterQname` modelled from
the spec: `<operationalIdHex>-<nodeIdHex>._matter._tcp.local`. -/
def createOperationalMatterQName (operationalId : List Nat) (nodeId : Nat) : String :=
  bytesToHexUpper operationalId ++ "-" ++ natToHex16 nodeId ++ "." ++ MATTER_SERVICE_QNAME

/-- The synchronous prefix of `findOperationalDevice`, up to its first await:
fail with `ImplementationError` while closing; otherwise return a cached ready
record, or register a waiter and the SRV query. -/
def findOperationalDeviceStart (st : ScannerState) (operationalId : List Nat) (nodeId : Nat)
    (timeoutSeconds : Option ℚ) (ignoreExistingRecords : Bool := false) :
    Except ScanError (ScannerState × Option OperationalDevice) :=
  if st.closing then
    .error (.implementationError "Cannot discover operational device because scanner is closing.")
  else
    let deviceMatterQname := createOperationalMatterQName operationalId nodeId
    let storedDevice :=
      if ignoreExistingRecords then none else getOperationalDeviceRecords st deviceMatterQname
    match storedDevice with
    | some device => .ok (st, some device)
    | none =>
      let st := registerWaiterPromise st deviceMatterQname timeoutSeconds.isSome
      let st := setQueryRecords st deviceMatterQname
        [⟨deviceMatterQname, DnsRecordClass.IN, DnsRecordType.SRV, false⟩]
      .ok (st, none)

/-- Result shape of `getCommissionableDeviceRecords`. -/
structure CommissionableDevice where
  deviceIdentifier : String
  instanceId : String
  data : DiscoveryData
  SD : Option Int
  V : Option Int
  P : Option Int
  addresses : List ServerAddressIp
deriving DecidableEq

/-- `getCommissionableDeviceRecords`: filter the cache by the identifier kind
and sort each entry's addresses. -/
def getCommissionableDeviceRecords (st : ScannerState)
    (identifier : CommissionableDeviceIdentifiers) : List CommissionableDevice :=
  let storedRecords : List CommissionableDeviceRecord :=
    st.commissionableDeviceRecords.map (fun p => p.2)
  let foundRecords : List CommissionableDeviceRecord :=
    match identifier with
    | .instanceId s => storedRecords.filter (fun r => r.instanceId = s)
    | .longDiscriminator d => storedRecords.filter (fun r => r.data.D = some d)
    | .shortDiscriminator d => storedRecords.filter (fun r => r.SD = some d)
    | .vendorId v => storedRecords.filter (fun r => r.V = some v)
    | .deviceType dt => storedRecords.filter (fun r => r.data.DT = some dt)
    | .productId p => storedRecords.filter (fun r => r.P = some p)
    | .anyCommissionable =>
      storedRecords.filter (fun r => r.data.CM = some 1 ∨ r.data.CM = some 2)
  foundRecords.map (fun r =>
    (⟨r.deviceIdentifier, r.instanceId, r.data, r.SD, r.V, r.P,
      (sortServerEntries (r.addresses.map (fun p => p.2))).map
        (fun e => (⟨e.ip, e.port⟩ : ServerAddressIp))⟩ : CommissionableDevice))

/-- The synchronous prefix of `findCommissionableDevices`, up to its first
await.  Notably it contains NO `closing` check: it never throws. -/
def findCommissionableDevicesStart (st : ScannerState)
    (identifier : CommissionableDeviceIdentifiers) (timeoutSeconds : Option ℚ := some 5)
    (ignoreExistingRecords : Bool := false) :
    Except ScanError (ScannerState × List CommissionableDevice) :=
  let storedRecords :=
    if ignoreExistingRecords then []
    else (getCommissionableDeviceRecords st identifier).filter (fun r => r.addresses ≠ [])
  if storedRecords = [] then
    let queryId := buildCommissionableQueryIdentifier identifier
    let st := registerWaiterPromise st queryId timeoutSeconds.isSome
    let st := setQueryRecords st queryId (getCommissionableQueryRecords identifier)
    .ok (st, [])
  else .ok (st, storedRecords)

/-- The synchronous prefix of `findCommissionableDevicesContinuously`, up to
its first await.  It also contains NO `closing` check. -/
def findCommissionableDevicesContinuouslyStart (st : ScannerState)
    (identifier : CommissionableDeviceIdentifiers) : Except ScanError ScannerState :=
  let queryId := buildCommissionableQueryIdentifier identifier
  .ok (setQueryRecords st queryId (getCommissionableQueryRecords identifier))

/-! ## The `sendQueries` packet loop (sizes only)

`DnsCodec.encode`/`encodeRecord` are not under src/; per the spec the codec
exposes `encodeRecord` so that callers can budget by record sizes, and a
message's encoded size is the size of the message without answers plus the
sizes of its (pre-encoded) answers.  The loop below is therefore modelled on
the encoded answer LENGTHS; `emptyLen` is the length of the encoded message
with its queries and no answers, and `withQueries` tracks the source's
clearing of the shared `queries` array at the first flush. -/

/-- One outbound datagram of a `sendQueries` burst. -/
structure OutgoingDatagram where
  messageType : DnsMessageType
  withQueries : Bool
  answerSizes : List Nat
deriving DecidableEq

/-- The `while` loop of `sendQueries`: append answers while the running size
stays within budget; on overflow flush the current message as a TruncatedQuery
(clearing the queries) and start a fresh one seeded with the answer that did
not fit; finally send the remainder as a normal Query. -/
def sendQueriesLoop (emptyLen : Nat) (cur : List Nat) (withQueries : Bool) :
    List Nat → List OutgoingDatagram
  | [] => [⟨DnsMessageType.query, withQueries, cur⟩]
  | a :: rest =>
    if emptyLen + (cur.sum + a) > MAX_MDNS_MESSAGE_SIZE then
      ⟨DnsMessageType.truncatedQuery, withQueries, cur⟩ :: sendQueriesLoop emptyLen [a] false rest
    else
      sendQueriesLoop emptyLen (cur ++ [a]) withQueries rest

/-- The datagrams of one `sendQueries` cycle, given the encoded length of the
empty message (header plus queries) and the encoded answer lengths. -/
def sendQueriesDatagrams (emptyLen : Nat) (answerSizes : List Nat) : List OutgoingDatagram :=
  sendQueriesLoop emptyLen [] true answerSizes

/-- Encoded size of an outbound datagram: header, plus the queries when they
have not been cleared, plus its answers. -/
def datagramSize (headerLen queriesLen : Nat) (d : OutgoingDatagram) : Nat :=
  headerLen + (if d.withQueries then queriesLen else 0) + d.answerSizes.sum

end Mdns

namespace MdnsServer

open Mdns

/-! ## The responder (`MdnsServer.ts`) -/

/-- The answer loop of `sendRecords`: same splitting as the scanner's, but the
flushed messages keep the caller's message type (no TruncatedQuery marking).
Returns the flushed answer batches and the final batch. -/
def sendRecordsAnswerLoop (emptyLen : Nat) (cur : List Nat) :
    List Nat → List (List Nat) × List Nat
  | [] => ([], cur)
  | a :: rest =>
    if emptyLen + (cur.sum + a) > MAX_MDNS_MESSAGE_SIZE then
      let r := sendRecordsAnswerLoop emptyLen [a] rest
      (cur :: r.1, r.2)
    else
      sendRecordsAnswerLoop emptyLen (cur ++ [a]) rest

/-- The additional-records loop of `sendRecords`: append while the running
size stays within budget, silently dropping the rest at the first overflow. -/
def additionalsFit (size : Nat) : List Nat → List Nat
  | [] => []
  | a :: rest =>
    if size + a > MAX_MDNS_MESSAGE_SIZE then []
    else a :: additionalsFit (size + a) rest

/-- One outbound datagram of a `sendRecords` burst. -/
structure ResponderDatagram where
  messageType : DnsMessageType
  answerSizes : List Nat
  additionalSizes : List Nat
deriving DecidableEq

/-- `sendRecords`: split the answers across messages, then append the
additional records that still fit to the last message; every message carries
the caller's message type. -/
def sendRecords (messageType : DnsMessageType) (emptyLen : Nat)
    (answerSizes additionalSizes : List Nat) : List ResponderDatagram :=
  let r := sendRecordsAnswerLoop emptyLen [] answerSizes
  r.1.map (fun m => (⟨messageType, m, []⟩ : ResponderDatagram))
    ++ [⟨messageType, r.2, additionalsFit (emptyLen + r.2.sum) additionalSizes⟩]

/-- Encoded size of a responder datagram. -/
def responderDatagramSize (emptyLen : Nat) (d : ResponderDatagram) : Nat :=
  emptyLen + d.answerSizes.sum + d.additionalSizes.sum

/-! ## Query answering (`handleDnsMessage` of the responder) -/

/-- `queryRecords`: the owned records matching a question (any type, or the
exact type). -/
def queryRecords (query : DnsQuery) (records : List DnsRecord) : List DnsRecord :=
  if query.recordType = DnsRecordType.ANY then
    records.filter (fun r => r.name = query.name)
  else
    records.filter (fun r => r.name = query.name && r.recordType = query.recordType)

/-- `buildDnsRecordKey`. -/
def buildDnsRecordKey (record : DnsRecord) (netInterface : String) : String :=
  record.name ++ "-" ++ toString record.recordClass ++ "-" ++ toString record.recordType
    ++ "-" ++ netInterface

/-- The known-answer suppression loop: drop every record deep-equal to one of
the query's known answers.  (The source's early `break` on an emptied list
does not change the result.) -/
def filterKnownAnswers (records knownAnswers : List DnsRecord) : List DnsRecord :=
  knownAnswers.foldl (fun acc ka => acc.filter (fun r => r ≠ ka)) records

/-- What `handleDnsMessage` passes to `sendRecords` for one record set. -/
structure ResponsePlan where
  answers : List DnsRecord
  additionalRecords : List DnsRecord
  uniCastResponse : Bool
  recordLastSent : List (String × Nat)
deriving DecidableEq

/-- The per-record-set body of the responder's `handleDnsMessage`: compute the
answers, the additional records (only for non-A/AAAA questions), apply
known-answer suppression to both, then duplicate suppression and the
unicast-response decision; `none` models `continue` (no datagram sent). -/
def respondToRecordSet (portRecords : List DnsRecord) (queries : List DnsQuery)
    (knownAnswers : List DnsRecord) (recordLastSent : List (String × Nat))
    (netInterface : String) (now : Nat) : Option ResponsePlan :=
  let answers := (queries.map (fun q => queryRecords q portRecords)).flatten
  if answers = [] then none
  else
    let additionalRecords :=
      if queries.any (fun q =>
          q.recordType != DnsRecordType.A && q.recordType != DnsRecordType.AAAA) then
        portRecords.filter (fun r => !(answers.contains r) && r.recordType != DnsRecordType.PTR)
      else []
    let answers2 := if knownAnswers ≠ [] then filterKnownAnswers answers knownAnswers else answers
    if answers2 = [] then none
    else
      let additionalRecords2 :=
        if knownAnswers ≠ [] ∧ additionalRecords ≠ [] then
          filterKnownAnswers additionalRecords knownAnswers
        else additionalRecords
      let uniCastRequested := (queries.filter (fun q => !q.uniCastResponse)) = []
      let times := answers2.map (fun a =>
        (((now : Int) - ((alookup recordLastSent (buildDnsRecordKey a netInterface)).getD 0 : Int)),
         a.ttl))
      let uniCastResponse :=
        if uniCastRequested
            ∧ 0 < (times.filter (fun t => ((t.2 : ℚ) / 4) * 1000 < (t.1 : ℚ))).length then
          false
        else uniCastRequested
      if uniCastResponse = false then
        let answers3 := ((answers2.zip times).filter (fun p => 1000 < p.2.1)).map (fun p => p.1)
        if answers3 = [] then none
        else
          let newLastSent := answers3.foldl
            (fun acc a => mapSet acc (buildDnsRecordKey a netInterface) now) recordLastSent
          some ⟨answers3, additionalRecords2, false, newLastSent⟩
      else some ⟨answers2, additionalRecords2, true, recordLastSent⟩

end MdnsServer

namespace Tlv

/-! ## The TLV object schema (`TlvWrapper.ts`, `ObjectSchema`)

The reader/writer pair of `TlvSchema.ts` is abstracted to a stream of already
decoded container elements: each element carries its tag (profile and id) and
the value its field schema decodes to (one `Int`; nested containers are
skipped as a whole by `TlvAny` in the source and are likewise one element
here).  The field schemas themselves are beyond the claim, so a field's inner
decode is the identity and its inner validation succeeds. -/

/-- One tagged element of a structure/list container body. -/
structure TlvElement where
  profile : Option Nat := none
  tagId : Option Nat
  value : Int
deriving DecidableEq

/-- A decoded field value: plain, or the accumulated array of a repeated
field. -/
inductive FieldVal where
  | single (v : Int)
  | many (vs : List Int)
deriving DecidableEq

/-- A field definition (`FieldType`): id, optionality, repetition, fallback
and the repeated-length constraints. -/
structure FieldDef where
  name : String
  id : Nat
  optional : Bool := false
  repeated : Bool := false
  fallback : Option Int := none
  minLength : Option Nat := none
  maxLength : Option Nat := none
deriving DecidableEq

/-- The two error kinds thrown by the object schema. -/
inductive TlvError where
  | unexpectedData (msg : String)
  | validationError (msg : String)
deriving DecidableEq

/-- One iteration of the `decodeTlvInternalValue` loop: reject non-context
tags and missing ids, skip unknown ids (the `TlvAny` path), store known ones
(appending for repeated fields). -/
def decodeStep (fields : List FieldDef) (result : List (String × FieldVal))
    (e : TlvElement) : Except TlvError (List (String × FieldVal)) :=
  if e.profile ≠ none then
    .error (.unexpectedData "Structure element tags should be context-specific.")
  else
    match e.tagId with
    | none => .error (.unexpectedData "Structure element tags should have an id.")
    | some id =>
      match fields.find? (fun f => f.id = id) with
      | none => .ok result
      | some f =>
        if f.repeated then
          match alookup result f.name with
          | some (.many vs) => .ok (mapSet result f.name (.many (vs ++ [e.value])))
          | _ => .ok (mapSet result f.name (.many [e.value]))
        else .ok (mapSet result f.name (.single e.value))

/-- The element loop of `decodeTlvInternalValue` (reading until the
end-of-container, i.e. the end of the element list). -/
def decodeElems (fields : List FieldDef) (result : List (String × FieldVal)) :
    List TlvElement → Except TlvError (List (String × FieldVal))
  | [] => .ok result
  | e :: rest =>
    match decodeStep fields result e with
    | .error err => .error err
    | .ok r => decodeElems fields r rest

/-- One field of the fallback pass of `decodeTlvInternalValue`: a mandatory
field that is still missing and declares a fallback is populated with it. -/
def fallbackStep (res : List (String × FieldVal)) (f : FieldDef) :
    List (String × FieldVal) :=
  if f.optional then res
  else
    match alookup res f.name with
    | some _ => res
    | none =>
      match f.fallback with
      | none => res
      | some v => mapSet res f.name (if f.repeated then .many [v] else .single v)

/-- The fallback pass of `decodeTlvInternalValue` over all fields. -/
def applyFallbacks (fields : List FieldDef) (result : List (String × FieldVal)) :
    List (String × FieldVal) :=
  fields.foldl fallbackStep result

/-- `ObjectSchema.decodeTlvInternalValue` on a container body. -/
def decodeTlvInternalValue (fields : List FieldDef) (elements : List TlvElement) :
    Except TlvError (List (String × FieldVal)) :=
  match decodeElems fields [] elements with
  | .error err => .error err
  | .ok r => .ok (applyFallbacks fields r)

/-- `ObjectSchema.validate` for one field (the inner schema's validation is
abstracted as succeeding). -/
def validateField (f : FieldDef) (data : Option FieldVal) : Except TlvError Unit :=
  match data with
  | none =>
    if f.optional then .ok ()
    else .error (.validationError ("Missing mandatory field " ++ f.name))
  | some v =>
    if f.repeated then
      match v with
      | .many vs =>
        if f.maxLength.getD 65535 < vs.length then
          .error (.validationError ("Repeated field list for " ++ f.name ++ " is too long."))
        else if vs.length < f.minLength.getD 2 then
          .error (.validationError ("Repeated field list for " ++ f.name ++ " is too short."))
        else .ok ()
      | .single _ =>
        .error (.validationError ("Repeated field " ++ f.name ++ " should be an array."))
    else .ok ()

/-- `ObjectSchema.validate`: check the fields in declaration order, failing at
the first violation. -/
def validateFields : List FieldDef → List (String × FieldVal) → Except TlvError Unit
  | [], _ => .ok ()
  | f :: rest, result =>
    match validateField f (alookup result f.name) with
    | .error err => .error err
    | .ok _ => validateFields rest result

/-- Modelled from the spec: the `Schema.decode` entry point (in `Schema.ts`,
not under src/) decodes the stream with `decodeTlvInternalValue` and then runs
`validate` on the result, so that schema violations such as a missing
mandatory field surface as `ValidationError` on decode. -/
def decode (fields : List FieldDef) (elements : List TlvElement) :
    Except TlvError (List (String × FieldVal)) :=
  match decodeTlvInternalValue fields elements with
  | .error err => .error err
  | .ok r =>
    match validateFields fields r with
    | .error err => .error err
    | .ok _ => .ok r

end Tlv

/-! # Helper lemmas about the association-list `Map` model -/

theorem alookup_append_none {α : Type} (l : List (String × α)) (k : String) (v : α)
    (h : alookup l k = none) : alookup (l ++ [(k, v)]) k = some v := by
  induction l with
  | nil => simp [alookup]
  | cons p rest ih =>
    simp only [alookup] at h ⊢
    by_cases hp : p.1 = k
    · simp [hp] at h
    · simp only [hp, if_false] at h ⊢
      exact ih h

theorem alookup_map_set {α : Type} (l : List (String × α)) (k : String) (v : α)
    (h : (alookup l k).isSome) :
    alookup (l.map (fun p => if p.1 = k then (k, v) else p)) k = some v := by
  induction l with
  | nil => simp [alookup] at h
  | cons p rest ih =>
    by_cases hp : p.1 = k
    · simp [alookup, hp]
    · simp only [alookup, hp, if_false] at h ⊢
      simpa [alookup, hp] using ih h

theorem alookup_append_single_ne {α : Type} (l : List (String × α)) (k k' : String) (v : α)
    (h : k ≠ k') : alookup (l ++ [(k, v)]) k' = alookup l k' := by
  induction l with
  | nil => simp [alookup, h]
  | cons p rest ih =>
    by_cases hp : p.1 = k' <;> simp [alookup, hp, ih]

theorem alookup_map_set_ne {α : Type} (l : List (String × α)) (k k' : String) (v : α)
    (h : k ≠ k') :
    alookup (l.map (fun p => if p.1 = k then (k, v) else p)) k' = alookup l k' := by
  induction l with
  | nil => simp [alookup]
  | cons p rest ih =>
    by_cases hp : p.1 = k
    · have hp' : p.1 ≠ k' := by rw [hp]; exact h
      simp only [List.map_cons, alookup, hp, if_true, hp', if_false, h, ih]
    · simp only [List.map_cons, alookup, hp, if_false, ih]

theorem alookup_mapSet_self {α : Type} (l : List (String × α)) (k : String) (v : α) :
    alookup (mapSet l k v) k = some v := by
  unfold mapSet
  by_cases h : (alookup l k).isSome
  · simp only [h, if_true]
    exact alookup_map_set l k v h
  · simp only [h, if_false]
    exact alookup_append_none l k v (by
      cases hv : alookup l k with
      | none => rfl
      | some w => simp [hv] at h)

theorem alookup_mapSet_ne {α : Type} (l : List (String × α)) (k k' : String) (v : α)
    (h : k ≠ k') : alookup (mapSet l k v) k' = alookup l k' := by
  unfold mapSet
  by_cases hs : (alookup l k).isSome
  · simp only [hs, if_true]
    exact alookup_map_set_ne l k k' v h
  · simp only [hs, if_false]
    exact alookup_append_single_ne l k k' v h

theorem alookup_mapDelete_self {α : Type} (l : List (String × α)) (k : String) :
    alookup (mapDelete l k) k = none := by
  induction l with
  | nil => rfl
  | cons p rest ih =>
    by_cases hp : p.1 = k
    · simpa [mapDelete, hp] using ih
    · simpa [mapDelete, hp, alookup] using ih

theorem alookup_mapDelete_ne {α : Type} (l : List (String × α)) (k k' : String)
    (h : k ≠ k') : alookup (mapDelete l k) k' = alookup l k' := by
  induction l with
  | nil => rfl
  | cons p rest ih =>
    simp only [mapDelete]
    by_cases hp : p.1 = k
    · have hp' : p.1 ≠ k' := by rw [hp]; exact h
      rw [if_pos hp, ih]
      simp [alookup, hp']
    · rw [if_neg hp]
      by_cases hp' : p.1 = k'
      · simp [alookup, hp']
      · simp [alookup, hp', ih]

theorem alookup_none_of_not_mem_keys {α : Type} (l : List (String × α)) (k : String)
    (h : k ∉ l.map (fun p => p.1)) : alookup l k = none := by
  induction l with
  | nil => rfl
  | cons p rest ih =>
    simp only [List.map_cons, List.mem_cons] at h
    push_neg at h
    have hp : p.1 ≠ k := fun hh => h.1 hh.symm
    simp [alookup, hp, ih h.2]

theorem mem_keys_of_alookup_isSome {α : Type} (l : List (String × α)) (k : String)
    (h : (alookup l k).isSome) : k ∈ l.map (fun p => p.1) := by
  by_contra hc
  rw [alookup_none_of_not_mem_keys l k hc] at h
  simp at h

/-! # Claim C1: `setQueryRecords` on an existing queryId -/

/-- Concrete SRV query on name `a.example.local`. -/
def c1Query1 : Mdns.DnsQuery := ⟨"a.example.local", 1, 0x21, false⟩

/-- Concrete SRV query on name `b.example.local`. -/
def c1Query2 : Mdns.DnsQuery := ⟨"b.example.local", 1, 0x21, false⟩

/-- A scanner state with one active query `q1` holding `c1Query1`. -/
def c1State : Mdns.ScannerState :=
  { activeAnnounceQueries := [("q1", ⟨[c1Query1], []⟩)] }

/-- Claim C1 counterexample: calling `setQueryRecords` for an existing queryId
with one genuinely new query tuple stores ONLY the new queries `[c1Query2]`;
the previously stored tuple `c1Query1` is dropped, so the stored query set is
NOT the union of the new tuples with the previous ones as the claim states. -/
theorem c1_counterexample :
    alookup (Mdns.setQueryRecords c1State "q1" [c1Query2] []).activeAnnounceQueries "q1"
        = some ⟨[c1Query2], []⟩
      ∧ c1Query1 ∉ [c1Query2] := by
  exact ⟨by decide, by decide⟩

/-- Claim C1 (amended): for a call on an existing queryId, when every new
query tuple (name, class, type) already occurs among the stored ones the call
is a no-op (no stored state changes, no timer or interval reset); otherwise
the stored queries are REPLACED by the new `queries` list (existing tuples are
not retained), the new knownAnswers are appended to the previously stored
answers, the announce interval resets to 1.5 s and an immediate send is
scheduled. -/
theorem c1_amended (st : Mdns.ScannerState) (queryId : String)
    (queries : List Mdns.DnsQuery) (answers : List Mdns.DnsRecord)
    (existing : Mdns.ActiveQuery)
    (hex : alookup st.activeAnnounceQueries queryId = some existing) :
    ((∀ q ∈ queries, ∃ e ∈ existing.queries, Mdns.queryMatches e q) →
      Mdns.setQueryRecords st queryId queries answers = st)
    ∧ ((∃ q ∈ queries, ∀ e ∈ existing.queries, ¬ Mdns.queryMatches e q) →
      alookup (Mdns.setQueryRecords st queryId queries answers).activeAnnounceQueries queryId
          = some ⟨queries, existing.answers ++ answers⟩
        ∧ (Mdns.setQueryRecords st queryId queries answers).nextAnnounceIntervalSeconds = 3 / 2
        ∧ (Mdns.setQueryRecords st queryId queries answers).queryTimerDelayMs = some 0) := by
  constructor
  · intro hall
    have hnil : queries.filter
        (fun query => !(existing.queries.any (fun e => Mdns.queryMatches e query))) = [] := by
      rw [List.filter_eq_nil_iff]
      intro q hq
      have hany : existing.queries.any (fun e => Mdns.queryMatches e q) = true :=
        List.any_eq_true.mpr (hall q hq)
      simp [hany]
    simp [Mdns.setQueryRecords, hex, hnil]
  · intro ⟨q, hq, hnone⟩
    have hne : queries.filter
        (fun query => !(existing.queries.any (fun e => Mdns.queryMatches e query))) ≠ [] := by
      have hany : existing.queries.any (fun e => Mdns.queryMatches e q) = false :=
        List.any_eq_false.mpr (fun e he => hnone e he)
      have hmem : q ∈ queries.filter
          (fun query => !(existing.queries.any (fun e => Mdns.queryMatches e query))) :=
        List.mem_filter.mpr ⟨hq, by simp [hany]⟩
      intro hn
      rw [hn] at hmem
      exact absurd hmem (List.not_mem_nil q)
    refine ⟨?_, ?_, ?_⟩ <;>
      simp [Mdns.setQueryRecords, Mdns.START_ANNOUNCE_INTERVAL_SECONDS, hex, hne,
        alookup_mapSet_self]

/-- Claim C1 amended witness: concrete run of the overwriting branch. -/
theorem c1_amended_witness :
    alookup (Mdns.setQueryRecords c1State "q1" [c1Query2] []).activeAnnounceQueries "q1"
        = some ⟨[c1Query2], []⟩
      ∧ (Mdns.setQueryRecords c1State "q1" [c1Query2] []).nextAnnounceIntervalSeconds = 3 / 2
      ∧ (Mdns.setQueryRecords c1State "q1" [c1Query2] []).queryTimerDelayMs = some 0 :=
  (c1_amended c1State "q1" [c1Query2] [] ⟨[c1Query1], []⟩ (by decide)).2 (by decide)

/-! # Claim C3: announce interval doubling and reset -/

/-- A fresh scanner state (announce interval at its initial 1.5 s). -/
def c3State : Mdns.ScannerState := {}

/-- Concrete SRV query used in the C3 witness. -/
def c3Query : Mdns.DnsQuery := ⟨"c.example.local", 1, 0x21, false⟩

/-- Claim C3: between two consecutive `sendQueries` cycles with no intervening
`setQueryRecords`, the timer delay scheduled by the second cycle is the double
of the first cycle's delay capped at 3600 s (in ms: `min (2*d) 3600000`); in
particular it is exactly double while the double stays within the cap, and
stays at 3600 s once there; and every `setQueryRecords` call that changes the
stored queries resets the interval to 1.5 s and schedules an immediate send
(timer delay 0). -/
theorem c3_interval (st : Mdns.ScannerState) (d : ℚ)
    (h : (Mdns.sendQueriesSchedule st).queryTimerDelayMs = some d) :
    ((Mdns.sendQueriesSchedule (Mdns.sendQueriesSchedule st)).queryTimerDelayMs
        = some (min (2 * d) (3600 * 1000)))
    ∧ (2 * d ≤ 3600 * 1000 →
        (Mdns.sendQueriesSchedule (Mdns.sendQueriesSchedule st)).queryTimerDelayMs
          = some (2 * d))
    ∧ (d = 3600 * 1000 →
        (Mdns.sendQueriesSchedule (Mdns.sendQueriesSchedule st)).queryTimerDelayMs
          = some (3600 * 1000))
    ∧ (∀ (st2 : Mdns.ScannerState) (queryId : String) (queries : List Mdns.DnsQuery)
        (answers : List Mdns.DnsRecord),
        (∀ existing, alookup st2.activeAnnounceQueries queryId = some existing →
          ∃ q ∈ queries, ∀ e ∈ existing.queries, ¬ Mdns.queryMatches e q) →
        (Mdns.setQueryRecords st2 queryId queries answers).nextAnnounceIntervalSeconds = 3 / 2
          ∧ (Mdns.setQueryRecords st2 queryId queries answers).queryTimerDelayMs = some 0) := by
  have hd : st.nextAnnounceIntervalSeconds * 1000 = d := by
    simpa [Mdns.sendQueriesSchedule] using h
  have harg : st.nextAnnounceIntervalSeconds * 2 * 1000 = 2 * d := by
    rw [← hd]; ring
  have key : (Mdns.sendQueriesSchedule (Mdns.sendQueriesSchedule st)).queryTimerDelayMs
      = some (min (2 * d) (3600 * 1000)) := by
    simp only [Mdns.sendQueriesSchedule]
    congr 1
    rw [min_mul_of_nonneg _ _ (by norm_num : (0 : ℚ) ≤ 1000), harg]
    norm_num
  refine ⟨key, ?_, ?_, ?_⟩
  · intro hle
    rw [key, min_eq_left hle]
  · intro hc
    rw [key, hc]
    norm_num
  · intro st2 queryId queries answers hch
    cases hx : alookup st2.activeAnnounceQueries queryId with
    | none =>
      constructor <;>
        simp [Mdns.setQueryRecords, hx, Mdns.START_ANNOUNCE_INTERVAL_SECONDS]
    | some existing =>
      obtain ⟨q, hq, hnone⟩ := hch existing hx
      have hany : existing.queries.any (fun e => Mdns.queryMatches e q) = false :=
        List.any_eq_false.mpr (fun e he => hnone e he)
      have hne : queries.filter
          (fun query => !(existing.queries.any (fun e => Mdns.queryMatches e query))) ≠ [] := by
        have hmem : q ∈ queries.filter
            (fun query => !(existing.queries.any (fun e => Mdns.queryMatches e query))) :=
          List.mem_filter.mpr ⟨hq, by simp [hany]⟩
        intro hn
        rw [hn] at hmem
        exact absurd hmem (List.not_mem_nil q)
      constructor <;>
        simp [Mdns.setQueryRecords, hx, hne, Mdns.START_ANNOUNCE_INTERVAL_SECONDS]

/-- Claim C3 witness: starting at the initial 1.5 s interval, the first cycle
schedules 1500 ms and the second 3000 ms; a fresh `setQueryRecords` resets the
interval and schedules an immediate send. -/
theorem c3_interval_witness :
    (Mdns.sendQueriesSchedule (Mdns.sendQueriesSchedule c3State)).queryTimerDelayMs = some 3000
    ∧ (Mdns.setQueryRecords c3State "q3" [c3Query] []).nextAnnounceIntervalSeconds = 3 / 2
    ∧ (Mdns.setQueryRecords c3State "q3" [c3Query] []).queryTimerDelayMs = some 0 := by
  have h := c3_interval c3State 1500
    (by norm_num [Mdns.sendQueriesSchedule, c3State])
  have h4 := h.2.2.2 c3State "q3" [c3Query] []
    (fun ex hex => by simp [c3State, alookup] at hex)
  refine ⟨?_, h4.1, h4.2⟩
  have h2 := h.2.1 (by norm_num)
  rw [h2]
  norm_num

/-! # Claim C2: MTU budgeting of outbound bursts -/

theorem sendQueriesLoop_ne_nil (emptyLen : Nat) (answers : List Nat) :
    ∀ (cur : List Nat) (withQ : Bool),
      Mdns.sendQueriesLoop emptyLen cur withQ answers ≠ [] := by
  induction answers with
  | nil => intro cur withQ; simp [Mdns.sendQueriesLoop]
  | cons a rest ih =>
    intro cur withQ
    simp only [Mdns.sendQueriesLoop]
    split
    · simp
    · exact ih (cur ++ [a]) withQ

theorem sendQueriesLoop_size (emptyLen : Nat) (answers : List Nat) :
    ∀ (cur : List Nat) (withQ : Bool),
      (emptyLen + cur.sum ≤ Mdns.MAX_MDNS_MESSAGE_SIZE
        ∨ ∃ a ∈ cur, Mdns.MAX_MDNS_MESSAGE_SIZE < emptyLen + a) →
      ∀ d ∈ Mdns.sendQueriesLoop emptyLen cur withQ answers,
        (∀ a ∈ d.answerSizes, emptyLen + a ≤ Mdns.MAX_MDNS_MESSAGE_SIZE) →
        emptyLen + d.answerSizes.sum ≤ Mdns.MAX_MDNS_MESSAGE_SIZE := by
  induction answers with
  | nil =>
    intro cur withQ hinv d hd hfit
    simp only [Mdns.sendQueriesLoop, List.mem_singleton] at hd
    subst hd
    rcases hinv with h | ⟨a, ha, hbig⟩
    · exact h
    · exact absurd (hfit a ha) (Nat.not_le.mpr hbig)
  | cons a rest ih =>
    intro cur withQ hinv d hd hfit
    simp only [Mdns.sendQueriesLoop] at hd
    split at hd
    · rcases List.mem_cons.mp hd with hd1 | hd2
      · subst hd1
        rcases hinv with h | ⟨b, hb, hbig⟩
        · exact h
        · exact absurd (hfit b hb) (Nat.not_le.mpr hbig)
      · refine ih [a] false ?_ d hd2 hfit
        rcases le_or_lt (emptyLen + a) Mdns.MAX_MDNS_MESSAGE_SIZE with hle | hgt
        · left; simpa using hle
        · right; exact ⟨a, List.mem_singleton_self a, hgt⟩
    · refine ih (cur ++ [a]) withQ ?_ d hd hfit
      left
      rename_i hnot
      have := Nat.not_lt.mp (fun hc => hnot hc)
      simpa [List.sum_append, Nat.add_assoc] using this

theorem sendQueriesLoop_flatten (emptyLen : Nat) (answers : List Nat) :
    ∀ (cur : List Nat) (withQ : Bool),
      ((Mdns.sendQueriesLoop emptyLen cur withQ answers).map
        (fun d => d.answerSizes)).flatten = cur ++ answers := by
  induction answers with
  | nil => intro cur withQ; simp [Mdns.sendQueriesLoop]
  | cons a rest ih =>
    intro cur withQ
    simp only [Mdns.sendQueriesLoop]
    split
    · simp [ih [a] false]
    · simp [ih (cur ++ [a]) withQ]

theorem sendQueriesLoop_types (emptyLen : Nat) (answers : List Nat) :
    ∀ (cur : List Nat) (withQ : Bool),
      ((Mdns.sendQueriesLoop emptyLen cur withQ answers).getLast?.map
          (fun d => d.messageType) = some Mdns.DnsMessageType.query)
      ∧ ∀ d ∈ (Mdns.sendQueriesLoop emptyLen cur withQ answers).dropLast,
          d.messageType = Mdns.DnsMessageType.truncatedQuery := by
  induction answers with
  | nil => intro cur withQ; simp [Mdns.sendQueriesLoop]
  | cons a rest ih =>
    intro cur withQ
    simp only [Mdns.sendQueriesLoop]
    split
    · obtain ⟨z, L', hz⟩ := List.exists_cons_of_ne_nil (sendQueriesLoop_ne_nil emptyLen rest [a] false)
      rw [hz]
      have ihz := ih [a] false
      rw [hz] at ihz
      constructor
      · rw [List.getLast?_cons_cons]
        exact ihz.1
      · intro d hd
        rw [show Mdns.OutgoingDatagram.mk Mdns.DnsMessageType.truncatedQuery withQ cur
              :: z :: L' = [Mdns.OutgoingDatagram.mk Mdns.DnsMessageType.truncatedQuery withQ cur]
              ++ z :: L' from rfl] at hd
        rw [List.dropLast_append_of_ne_nil _ (by simp : z :: L' ≠ [])] at hd
        rcases List.mem_append.mp hd with hd1 | hd2
        · simp only [List.mem_singleton] at hd1
          subst hd1
          rfl
        · exact ihz.2 d hd2
    · exact ih (cur ++ [a]) withQ

theorem sendRecordsAnswerLoop_flatten (emptyLen : Nat) (answers : List Nat) :
    ∀ (cur : List Nat),
      ((MdnsServer.sendRecordsAnswerLoop emptyLen cur answers).1.flatten)
        ++ (MdnsServer.sendRecordsAnswerLoop emptyLen cur answers).2 = cur ++ answers := by
  induction answers with
  | nil => intro cur; simp [MdnsServer.sendRecordsAnswerLoop]
  | cons a rest ih =>
    intro cur
    simp only [MdnsServer.sendRecordsAnswerLoop]
    split
    · simpa using ih [a]
    · simp [ih (cur ++ [a])]

theorem sendRecordsAnswerLoop_size (emptyLen : Nat) (answers : List Nat) :
    ∀ (cur : List Nat),
      (emptyLen + cur.sum ≤ Mdns.MAX_MDNS_MESSAGE_SIZE
        ∨ ∃ a ∈ cur, Mdns.MAX_MDNS_MESSAGE_SIZE < emptyLen + a) →
      (∀ b ∈ (MdnsServer.sendRecordsAnswerLoop emptyLen cur answers).1,
        (∀ a ∈ b, emptyLen + a ≤ Mdns.MAX_MDNS_MESSAGE_SIZE) →
        emptyLen + b.sum ≤ Mdns.MAX_MDNS_MESSAGE_SIZE)
      ∧ ((∀ a ∈ (MdnsServer.sendRecordsAnswerLoop emptyLen cur answers).2,
            emptyLen + a ≤ Mdns.MAX_MDNS_MESSAGE_SIZE) →
          emptyLen + (MdnsServer.sendRecordsAnswerLoop emptyLen cur answers).2.sum
            ≤ Mdns.MAX_MDNS_MESSAGE_SIZE) := by
  induction answers with
  | nil =>
    intro cur hinv
    refine ⟨by simp [MdnsServer.sendRecordsAnswerLoop], ?_⟩
    intro hfit
    simp only [MdnsServer.sendRecordsAnswerLoop]
    rcases hinv with h | ⟨a, ha, hbig⟩
    · exact h
    · exact absurd (hfit a (by simpa [MdnsServer.sendRecordsAnswerLoop] using ha))
        (Nat.not_le.mpr hbig)
  | cons a rest ih =>
    intro cur hinv
    simp only [MdnsServer.sendRecordsAnswerLoop]
    split
    · have hnext := ih [a] (by
        rcases le_or_lt (emptyLen + a) Mdns.MAX_MDNS_MESSAGE_SIZE with hle | hgt
        · left; simpa using hle
        · right; exact ⟨a, List.mem_singleton_self a, hgt⟩)
      refine ⟨?_, hnext.2⟩
      intro b hb hfit
      rcases List.mem_cons.mp hb with hb1 | hb2
      · subst hb1
        rcases hinv with h | ⟨c, hc, hbig⟩
        · exact h
        · exact absurd (hfit c hc) (Nat.not_le.mpr hbig)
      · exact hnext.1 b hb2 hfit
    · refine ih (cur ++ [a]) ?_
      left
      rename_i hnot
      have := Nat.not_lt.mp (fun hc => hnot hc)
      simpa [List.sum_append, Nat.add_assoc] using this

theorem additionalsFit_size (l : List Nat) :
    ∀ s : Nat, MdnsServer.additionalsFit s l = []
      ∨ s + (MdnsServer.additionalsFit s l).sum ≤ Mdns.MAX_MDNS_MESSAGE_SIZE := by
  induction l with
  | nil => intro s; left; rfl
  | cons a rest ih =>
    intro s
    simp only [MdnsServer.additionalsFit]
    split
    · left; rfl
    · right
      rename_i hnot
      have hle : s + a ≤ Mdns.MAX_MDNS_MESSAGE_SIZE := Nat.not_lt.mp (fun hc => hnot hc)
      rcases ih (s + a) with h | h
      · simpa [h] using hle
      · simpa [Nat.add_assoc] using h

/-- Claim C2 counterexample: with the queries encoding to 20 bytes (header 12,
so the empty message is 32 bytes) and a single answer encoding to 2000 bytes,
`sendQueries` first flushes the queries-only message as a TruncatedQuery and
then emits the final Query datagram carrying the oversized answer: that
datagram is 2012 bytes, exceeding the claimed 1500-byte bound on every
outbound datagram. -/
theorem c2_counterexample :
    Mdns.sendQueriesDatagrams 32 [2000]
        = [⟨Mdns.DnsMessageType.truncatedQuery, true, []⟩,
           ⟨Mdns.DnsMessageType.query, false, [2000]⟩]
      ∧ Mdns.datagramSize 12 20 ⟨Mdns.DnsMessageType.query, false, [2000]⟩ = 2012
      ∧ Mdns.MAX_MDNS_MESSAGE_SIZE < 2012 := by
  refine ⟨by decide, by decide, by decide⟩

/-- Claim C2 (amended): in a `sendQueries` burst every datagram all of whose
answers individually fit the 1500-byte budget is at most 1500 bytes (an answer
whose encoding alone exceeds the budget is still emitted, in an oversized
datagram); every answer is emitted exactly once across the burst; all
datagrams but the last carry TruncatedQuery and the last carries Query.  In a
responder `sendRecords` burst the same size bound holds and all answers are
emitted, but every datagram carries the CALLER'S message type (intermediate
flushes are not marked truncated), and only the additional records that fit
the last message are sent (the rest are dropped). -/
theorem c2_amended (headerLen queriesLen emptyLenR : Nat)
    (answerSizes additionalSizes : List Nat) (mt : Mdns.DnsMessageType)
    (hq : headerLen + queriesLen ≤ Mdns.MAX_MDNS_MESSAGE_SIZE)
    (hr : emptyLenR ≤ Mdns.MAX_MDNS_MESSAGE_SIZE) :
    (∀ d ∈ Mdns.sendQueriesDatagrams (headerLen + queriesLen) answerSizes,
      (∀ a ∈ d.answerSizes, headerLen + queriesLen + a ≤ Mdns.MAX_MDNS_MESSAGE_SIZE) →
      Mdns.datagramSize headerLen queriesLen d ≤ Mdns.MAX_MDNS_MESSAGE_SIZE)
    ∧ ((Mdns.sendQueriesDatagrams (headerLen + queriesLen) answerSizes).map
        (fun d => d.answerSizes)).flatten = answerSizes
    ∧ (∀ d ∈ (Mdns.sendQueriesDatagrams (headerLen + queriesLen) answerSizes).dropLast,
        d.messageType = Mdns.DnsMessageType.truncatedQuery)
    ∧ ((Mdns.sendQueriesDatagrams (headerLen + queriesLen) answerSizes).getLast?.map
        (fun d => d.messageType)) = some Mdns.DnsMessageType.query
    ∧ (∀ d ∈ MdnsServer.sendRecords mt emptyLenR answerSizes additionalSizes,
        d.messageType = mt)
    ∧ ((MdnsServer.sendRecords mt emptyLenR answerSizes additionalSizes).map
        (fun d => d.answerSizes)).flatten = answerSizes
    ∧ (∀ d ∈ MdnsServer.sendRecords mt emptyLenR answerSizes additionalSizes,
        (∀ a ∈ d.answerSizes, emptyLenR + a ≤ Mdns.MAX_MDNS_MESSAGE_SIZE) →
        MdnsServer.responderDatagramSize emptyLenR d ≤ Mdns.MAX_MDNS_MESSAGE_SIZE) := by
  have hinvQ : (headerLen + queriesLen) + ([] : List Nat).sum ≤ Mdns.MAX_MDNS_MESSAGE_SIZE
      ∨ ∃ a ∈ ([] : List Nat), Mdns.MAX_MDNS_MESSAGE_SIZE < (headerLen + queriesLen) + a := by
    left; simpa using hq
  have hinvR : emptyLenR + ([] : List Nat).sum ≤ Mdns.MAX_MDNS_MESSAGE_SIZE
      ∨ ∃ a ∈ ([] : List Nat), Mdns.MAX_MDNS_MESSAGE_SIZE < emptyLenR + a := by
    left; simpa using hr
  refine ⟨?_, ?_, ?_, ?_, ?_, ?_, ?_⟩
  · intro d hd hfit
    have := sendQueriesLoop_size (headerLen + queriesLen) answerSizes [] true hinvQ d hd hfit
    unfold Mdns.datagramSize
    have hbase : headerLen + (if d.withQueries then queriesLen else 0)
        ≤ headerLen + queriesLen := by
      split <;> omega
    omega
  · simpa using sendQueriesLoop_flatten (headerLen + queriesLen) answerSizes [] true
  · exact (sendQueriesLoop_types (headerLen + queriesLen) answerSizes [] true).2
  · exact (sendQueriesLoop_types (headerLen + queriesLen) answerSizes [] true).1
  · intro d hd
    unfold MdnsServer.sendRecords at hd
    rcases List.mem_append.mp hd with hd1 | hd2
    · obtain ⟨m, _, hm⟩ := List.mem_map.mp hd1
      rw [← hm]
    · simp only [List.mem_singleton] at hd2
      rw [hd2]
  · unfold MdnsServer.sendRecords
    rw [List.map_append, List.map_map, List.flatten_append]
    have hcomp : ((fun (d : MdnsServer.ResponderDatagram) => d.answerSizes) ∘
        (fun m => (⟨mt, m, []⟩ : MdnsServer.ResponderDatagram))) = id := rfl
    rw [hcomp, List.map_id]
    have := sendRecordsAnswerLoop_flatten emptyLenR answerSizes []
    simpa using this
  · intro d hd hfit
    have hsz := sendRecordsAnswerLoop_size emptyLenR answerSizes [] hinvR
    unfold MdnsServer.sendRecords at hd
    rcases List.mem_append.mp hd with hd1 | hd2
    · obtain ⟨m, hm, hmd⟩ := List.mem_map.mp hd1
      have hb := hsz.1 m hm (by
        intro a ha
        exact hfit a (by rw [← hmd] at *; exact ha))
      rw [← hmd]
      unfold MdnsServer.responderDatagramSize
      simpa using hb
    · simp only [List.mem_singleton] at hd2
      subst hd2
      unfold MdnsServer.responderDatagramSize
      simp only
      have hfin := hsz.2 (by
        intro a ha
        exact hfit a (by simpa using ha))
      rcases additionalsFit_size additionalSizes
          (emptyLenR + (MdnsServer.sendRecordsAnswerLoop emptyLenR [] answerSizes).2.sum) with
        hemp | hok
      · rw [hemp]
        simpa using hfin
      · omega

/-- Claim C2 amended witness: a concrete burst where the answers [100, 200]
are all emitted. -/
theorem c2_amended_witness :
    ((Mdns.sendQueriesDatagrams (12 + 20) [100, 200]).map
      (fun d => d.answerSizes)).flatten = [100, 200] :=
  (c2_amended 12 20 12 [100, 200] [50] Mdns.DnsMessageType.response
    (by decide) (by decide)).2.1

/-! # Claim C4: goodbye records (ttl = 0) -/

/-- Operational matter qname of the first cached device. -/
def c4Name1 : String := "AAA1._matter._tcp.local"

/-- Operational matter qname of the second cached device. -/
def c4Name2 : String := "BBB2._matter._tcp.local"

/-- A cached operational entry with one address. -/
def c4Entry (name : String) : Mdns.OperationalDeviceRecord :=
  { deviceIdentifier := name
    addresses := [("fd00::1", ⟨"fd00::1", 5540, 999999⟩)]
    expires := 999999 }

/-- Scanner state caching both operational devices. -/
def c4State : Mdns.ScannerState :=
  { operationalDeviceRecords := [(c4Name1, c4Entry c4Name1), (c4Name2, c4Entry c4Name2)] }

/-- A message carrying goodbye TXT answers for BOTH cached devices. -/
def c4Message : Mdns.DnsMessage :=
  { messageType := Mdns.DnsMessageType.response
    answers := [⟨c4Name1, Mdns.DnsRecordType.TXT, 1, 0, .txt []⟩,
                ⟨c4Name2, Mdns.DnsRecordType.TXT, 1, 0, .txt []⟩] }

/-- Claim C4 counterexample: a message with goodbye (ttl = 0) TXT answers for
two cached operational devices removes only the first: `handleDnsMessage`
processes a single operational TXT answer per message (`answers.find`), so the
second goodbye answer's cache entry is still present after processing,
refuting the claim for every ingested ttl = 0 answer. -/
theorem c4_counterexample :
    c4Message.answers.get? 1
        = some ⟨c4Name2, Mdns.DnsRecordType.TXT, 1, 0, .txt []⟩
      ∧ (alookup c4State.operationalDeviceRecords c4Name2).isSome
      ∧ (alookup (Mdns.handleDnsMessage c4State c4Message "eth0" 0).operationalDeviceRecords
          c4Name2).isSome := by
  refine ⟨by decide, by decide, by decide⟩

/-- Claim C4 (amended): each goodbye answer the scanner actually processes
removes its matching cache entry: the operational TXT and SRV handlers delete
the named operational entry, the commissionable TXT step deletes the named
commissionable entry, the commissionable SRV step deletes it whenever it is
cached, and a ttl = 0 A/AAAA record processed with an SRV record deletes the
matching IP address.  (Per message, only the FIRST operational TXT and FIRST
operational SRV answer are processed, so later operational goodbyes of the
same message are ignored.) -/
theorem c4_amended (st : Mdns.ScannerState) (r : Mdns.DnsRecord)
    (answers formerAnswers : List Mdns.DnsRecord) (missing : List String)
    (addrs : List (String × Mdns.MatterServerRecordWithExpire)) (ip : String) (port : Nat)
    (netInterface : String) (now : Nat) (h : r.ttl = 0) :
    alookup (Mdns.handleOperationalTxtRecord st r now).operationalDeviceRecords r.name = none
    ∧ alookup (Mdns.handleOperationalSrvRecord st r answers formerAnswers netInterface
        now).operationalDeviceRecords r.name = none
    ∧ alookup (Mdns.handleCommissionableTxtRecord st r
        now).1.commissionableDeviceRecords r.name = none
    ∧ ((alookup st.commissionableDeviceRecords r.name).isSome →
        alookup (Mdns.handleCommissionableSrvRecord st missing r answers formerAnswers
          netInterface now).1.commissionableDeviceRecords r.name = none)
    ∧ alookup (Mdns.applyIpRecords addrs [(ip, 0)] port now) ip = none := by
  refine ⟨?_, ?_, ?_, ?_, ?_⟩
  · simp [Mdns.handleOperationalTxtRecord, h, alookup_mapDelete_self]
  · simp [Mdns.handleOperationalSrvRecord, h, alookup_mapDelete_self]
  · simp [Mdns.handleCommissionableTxtRecord, h, alookup_mapDelete_self]
  · intro hsome
    cases hl : alookup st.commissionableDeviceRecords r.name with
    | none => rw [hl] at hsome; simp at hsome
    | some stored =>
      simp [Mdns.handleCommissionableSrvRecord, hl, h, alookup_mapDelete_self]
  · simp [Mdns.applyIpRecords, alookup_mapDelete_self]

/-- Claim C4 amended witness: a concrete goodbye TXT record removes the first
cached entry. -/
theorem c4_amended_witness :
    alookup (Mdns.handleOperationalTxtRecord c4State
        ⟨c4Name1, Mdns.DnsRecordType.TXT, 1, 0, .txt []⟩ 0).operationalDeviceRecords
      c4Name1 = none :=
  (c4_amended c4State ⟨c4Name1, Mdns.DnsRecordType.TXT, 1, 0, .txt []⟩ [] [] [] []
    "fd00::1" 5540 "eth0" 0 rfl).1

/-! # Claim C10: a TXT refresh never drops cached addresses -/

/-- Claim C10: for a TXT record with ttl > 0 of a device already cached,
processing the TXT record leaves the entry's address map (and its device
identifier) unchanged, in both the operational and the commissionable path. -/
theorem c10_txt_refresh (st : Mdns.ScannerState) (r : Mdns.DnsRecord) (now : Nat)
    (h : r.ttl ≠ 0) :
    (∀ device, alookup st.operationalDeviceRecords r.name = some device →
      ((alookup (Mdns.handleOperationalTxtRecord st r now).operationalDeviceRecords r.name).map
          (fun d => d.addresses) = some device.addresses)
        ∧ ((alookup (Mdns.handleOperationalTxtRecord st r now).operationalDeviceRecords
            r.name).map (fun d => d.deviceIdentifier) = some device.deviceIdentifier))
    ∧ (∀ stored, alookup st.commissionableDeviceRecords r.name = some stored →
        ((alookup (Mdns.handleCommissionableTxtRecord st r
            now).1.commissionableDeviceRecords r.name).map
          (fun d => d.addresses) = some stored.addresses)) := by
  constructor
  · intro device hdev
    cases hv : r.value <;>
      simp [Mdns.handleOperationalTxtRecord, h, hv, hdev, alookup_mapSet_self]
  · intro stored hst
    cases hp : Mdns.parseCommissionableTxtRecord r now with
    | none => simp [Mdns.handleCommissionableTxtRecord, h, hp, hst]
    | some parsed =>
      cases hvp : parsed.data.VP <;>
        simp [Mdns.handleCommissionableTxtRecord, h, hp, hst, hvp, alookup_mapSet_self]

/-- The cached operational entry used in the C10 witness. -/
def c10OpRecord : Mdns.OperationalDeviceRecord :=
  { deviceIdentifier := "OP1._matter._tcp.local"
    addresses := [("fd00::7", ⟨"fd00::7", 5540, 42⟩)]
    expires := 42 }

/-- The cached commissionable entry used in the C10 witness. -/
def c10CommRecord : Mdns.CommissionableDeviceRecord :=
  { deviceIdentifier := "inst9"
    instanceId := "inst9"
    data := { D := some 10, CM := some 1 }
    SD := some 0
    addresses := [("fe80::9%eth0", ⟨"fe80::9%eth0", 5540, 42⟩)]
    expires := 42 }

/-- Scanner state for the C10 witness, with one operational and one
commissionable entry under the same TXT names used below. -/
def c10State : Mdns.ScannerState :=
  { operationalDeviceRecords := [("OP1._matter._tcp.local", c10OpRecord)]
    commissionableDeviceRecords := [("inst9._matterc._udp.local", c10CommRecord)] }

/-- Claim C10 witness: concrete TXT refreshes keep the cached addresses. -/
theorem c10_txt_refresh_witness :
    ((alookup (Mdns.handleOperationalTxtRecord c10State
        ⟨"OP1._matter._tcp.local", Mdns.DnsRecordType.TXT, 1, 120, .txt ["SII=5000"]⟩
        7).operationalDeviceRecords "OP1._matter._tcp.local").map
      (fun d => d.addresses) = some c10OpRecord.addresses)
    ∧ ((alookup (Mdns.handleCommissionableTxtRecord c10State
        ⟨"inst9._matterc._udp.local", Mdns.DnsRecordType.TXT, 1, 120, .txt ["D=10", "CM=1"]⟩
        7).1.commissionableDeviceRecords "inst9._matterc._udp.local").map
      (fun d => d.addresses) = some c10CommRecord.addresses) := by
  constructor
  · exact ((c10_txt_refresh c10State
      ⟨"OP1._matter._tcp.local", Mdns.DnsRecordType.TXT, 1, 120, .txt ["SII=5000"]⟩
      7 (by decide)).1 c10OpRecord (by decide)).1
  · exact (c10_txt_refresh c10State
      ⟨"inst9._matterc._udp.local", Mdns.DnsRecordType.TXT, 1, 120, .txt ["D=10", "CM=1"]⟩
      7 (by decide)).2 c10CommRecord (by decide)

/-! # Claim C5: required commissionable TXT keys and derived SD -/

theorem parseCommissionableTxtRecord_inv (record : Mdns.DnsRecord) (now : Nat)
    (p : Mdns.CommissionableDeviceRecord)
    (hp : Mdns.parseCommissionableTxtRecord record now = some p) :
    p = { addresses := [], expires := now + record.ttl * 1000,
          data := Mdns.parseTxtRecord record.value }
    ∧ p.data.D ≠ none ∧ p.data.CM ≠ none := by
  cases hv : record.value
  case txt entries =>
    have hval : Mdns.parseCommissionableTxtRecord record now
        = (if (Mdns.parseTxtRecord record.value).D = none
              ∨ (Mdns.parseTxtRecord record.value).CM = none
           then none
           else some { deviceIdentifier := "", instanceId := "",
                       data := Mdns.parseTxtRecord record.value, SD := none, V := none,
                       P := none, addresses := [],
                       expires := now + record.ttl * 1000 }) := by
      simp [Mdns.parseCommissionableTxtRecord, hv]
    rw [hval] at hp
    by_cases hdc : (Mdns.parseTxtRecord record.value).D = none
        ∨ (Mdns.parseTxtRecord record.value).CM = none
    · rw [if_pos hdc] at hp
      exact absurd hp (by simp)
    · rw [if_neg hdc] at hp
      push_neg at hdc
      have hpeq := Option.some.inj hp
      refine ⟨?_, ?_, ?_⟩
      · rw [← hpeq, hv]
      · rw [← hpeq]; exact hdc.1
      · rw [← hpeq]; exact hdc.2
  all_goals simp [Mdns.parseCommissionableTxtRecord, hv] at hp

/-- Claim C5: a commissionable TXT record whose parsed data misses the `D` key
or the `CM` key is dropped by `parseCommissionableTxtRecord` (never stored);
and a successfully parsed record is stored with
`SD = (D >> 8) & 0x0f` derived from its `D` (the TXT parser never populates
`SD`, so the derivation always applies). -/
theorem c5_required_keys (record : Mdns.DnsRecord) (now : Nat) :
    (((Mdns.parseTxtRecord record.value).D = none
        ∨ (Mdns.parseTxtRecord record.value).CM = none) →
      Mdns.parseCommissionableTxtRecord record now = none)
    ∧ (∀ (st : Mdns.ScannerState) (p : Mdns.CommissionableDeviceRecord),
        record.ttl ≠ 0 →
        Mdns.parseCommissionableTxtRecord record now = some p →
        ((alookup (Mdns.handleCommissionableTxtRecord st record
            now).1.commissionableDeviceRecords record.name).map (fun d => d.SD))
          = some (p.data.D.map shortFromLongDiscriminator)) := by
  constructor
  · intro hdc
    unfold Mdns.parseCommissionableTxtRecord
    cases hv : record.value <;> simp_all
  · intro st p httl hp
    obtain ⟨hpeq, hD, _hCM⟩ := parseCommissionableTxtRecord_inv record now p hp
    have hSD : p.SD = none := by rw [hpeq]
    cases hvp : p.data.VP with
    | none =>
      cases hst : alookup st.commissionableDeviceRecords record.name <;>
        simp [Mdns.handleCommissionableTxtRecord, httl, hp, hD, hSD, hvp, hst,
          alookup_mapSet_self]
    | some vp =>
      cases hst : alookup st.commissionableDeviceRecords record.name <;>
        simp [Mdns.handleCommissionableTxtRecord, httl, hp, hD, hSD, hvp, hst,
          alookup_mapSet_self]

/-- The commissionable TXT record used in the C5 witness. -/
def c5Record : Mdns.DnsRecord :=
  ⟨"inst1._matterc._udp.local", Mdns.DnsRecordType.TXT, 1, 120, .txt ["D=3840", "CM=1"]⟩

/-- The parse result of `c5Record` at time 0. -/
def c5Parsed : Mdns.CommissionableDeviceRecord :=
  { addresses := [], expires := 120000, data := { D := some 3840, CM := some 1 } }

/-- A commissionable TXT record missing the required `D` key. -/
def c5NoDRecord : Mdns.DnsRecord :=
  ⟨"inst2._matterc._udp.local", Mdns.DnsRecordType.TXT, 1, 120, .txt ["CM=1"]⟩

/-- Claim C5 witness: `D=3840` yields a stored `SD = 15`; a record without `D`
is dropped. -/
theorem c5_required_keys_witness :
    ((alookup (Mdns.handleCommissionableTxtRecord ({} : Mdns.ScannerState) c5Record
        0).1.commissionableDeviceRecords c5Record.name).map (fun d => d.SD))
      = some (some 15)
    ∧ Mdns.parseCommissionableTxtRecord c5NoDRecord 0 = none := by
  constructor
  · have h := (c5_required_keys c5Record 0).2 {} c5Parsed (by decide) (by decide)
    rw [h]
    decide
  · exact (c5_required_keys c5NoDRecord 0).1 (by decide)

/-! # Claim C6: behaviour after `close()` -/

theorem mapDelete_of_alookup_none {α : Type} (l : List (String × α)) (k : String)
    (h : alookup l k = none) : mapDelete l k = l := by
  induction l with
  | nil => rfl
  | cons p rest ih =>
    simp only [alookup] at h
    by_cases hp : p.1 = k
    · simp [hp] at h
    · simp only [hp, if_false] at h
      simp [mapDelete, hp, ih h]

theorem finishWaiter_waiters (st : Mdns.ScannerState) (queryId : String) (res : Bool) :
    (Mdns.finishWaiter st queryId res false).recordWaiters
      = mapDelete st.recordWaiters queryId := by
  unfold Mdns.finishWaiter
  cases hw : alookup st.recordWaiters queryId with
  | none => simp [mapDelete_of_alookup_none st.recordWaiters queryId hw]
  | some w => simp

theorem finishWaiter_events (st : Mdns.ScannerState) (queryId : String) (res : Bool) :
    (Mdns.finishWaiter st queryId res false).events
      = st.events ++ (if (alookup st.recordWaiters queryId).isSome ∧ res then
          [Mdns.ScanEvent.waiterResolved queryId] else []) := by
  unfold Mdns.finishWaiter
  cases hw : alookup st.recordWaiters queryId with
  | none => simp
  | some w => cases res <;> simp

theorem finishWaiter_closing (st : Mdns.ScannerState) (queryId : String) (res : Bool) :
    (Mdns.finishWaiter st queryId res false).closing = st.closing := by
  unfold Mdns.finishWaiter
  cases hw : alookup st.recordWaiters queryId with
  | none => rfl
  | some w => simp

theorem closeWaitersLoop_alookup (keys : List String) :
    ∀ (st : Mdns.ScannerState) (queryId : String),
      alookup (Mdns.closeWaitersLoop keys st).recordWaiters queryId
        = if queryId ∈ keys then none else alookup st.recordWaiters queryId := by
  induction keys with
  | nil => intro st queryId; simp [Mdns.closeWaitersLoop]
  | cons k rest ih =>
    intro st queryId
    simp only [Mdns.closeWaitersLoop]
    rw [ih]
    by_cases hqk : queryId = k
    · subst hqk
      by_cases hqr : queryId ∈ rest
      · simp [hqr]
      · simp [hqr, finishWaiter_waiters, alookup_mapDelete_self]
    · by_cases hqr : queryId ∈ rest
      · simp [hqr, hqk]
      · have : queryId ∈ k :: rest ↔ False := by simp [hqk, hqr]
        simp [hqr, this, finishWaiter_waiters,
          alookup_mapDelete_ne st.recordWaiters k queryId (fun hc => hqk hc.symm)]

theorem closeWaitersLoop_mem_events (keys : List String) :
    ∀ (st : Mdns.ScannerState) (queryId : String),
      Mdns.ScanEvent.waiterResolved queryId ∈ (Mdns.closeWaitersLoop keys st).events
        ↔ (Mdns.ScanEvent.waiterResolved queryId ∈ st.events
            ∨ (queryId ∈ keys
                ∧ ∃ w, alookup st.recordWaiters queryId = some w ∧ w.hasTimer)) := by
  induction keys with
  | nil => intro st queryId; simp [Mdns.closeWaitersLoop]
  | cons k rest ih =>
    intro st queryId
    simp only [Mdns.closeWaitersLoop]
    rw [ih]
    rw [finishWaiter_events, finishWaiter_waiters]
    by_cases hqk : queryId = k
    · subst hqk
      rw [alookup_mapDelete_self]
      cases hw : alookup st.recordWaiters queryId with
      | none => simp [hw]
      | some w =>
        cases hT : w.hasTimer with
        | true => simp [hw, hT, List.mem_append]
        | false => simp [hw, hT, List.mem_append]
    · rw [alookup_mapDelete_ne st.recordWaiters k queryId (fun hc => hqk hc.symm)]
      have hne : Mdns.ScanEvent.waiterResolved queryId
          ∉ (if (alookup st.recordWaiters k).isSome
                ∧ (((alookup st.recordWaiters k).map Mdns.Waiter.hasTimer).getD false) = true
             then [Mdns.ScanEvent.waiterResolved k] else []) := by
        split
        · simp [hqk]
        · simp
      rw [List.mem_append]
      constructor
      · intro h
        rcases h with h | h
        · rcases h with h | h
          · exact Or.inl h
          · exact absurd h hne
        · exact Or.inr ⟨List.mem_cons_of_mem k h.1, h.2⟩
      · intro h
        rcases h with h | h
        · exact Or.inl (Or.inl h)
        · rcases List.mem_cons.mp h.1 with hc | hc
          · exact absurd hc hqk
          · exact Or.inr ⟨hc, h.2⟩

theorem except_isOk_ite {epsilon alpha : Type} (c : Prop) [Decidable c] (a b : alpha) :
    (if c then (Except.ok a : Except epsilon alpha) else Except.ok b).isOk = true := by
  split <;> rfl

theorem alookup_eq_none_all_imp_nil {α : Type} (l : List (String × α))
    (h : ∀ k, alookup l k = none) : l = [] := by
  cases l with
  | nil => rfl
  | cons p rest =>
    have := h p.1
    simp [alookup] at this

/-- Claim C6 counterexample: on a closed scanner,
`findCommissionableDevices`'s synchronous prefix succeeds (registering a
waiter and a query) instead of failing with an ImplementationError, because
the method contains no `closing` check; the same holds for
`findCommissionableDevicesContinuously`. -/
theorem c6_counterexample :
    ({ closing := true } : Mdns.ScannerState).closing = true
    ∧ (Mdns.findCommissionableDevicesStart ({ closing := true } : Mdns.ScannerState)
        .anyCommissionable (some 5) false).isOk
    ∧ (Mdns.findCommissionableDevicesContinuouslyStart
        ({ closing := true } : Mdns.ScannerState) .anyCommissionable).isOk := by
  refine ⟨rfl, by decide, by decide⟩

/-- Claim C6 (amended): after `close()` the scanner has `closing = true` and
`findOperationalDevice` fails with an ImplementationError, but
`findCommissionableDevices` and `findCommissionableDevicesContinuously`
contain no closing check and proceed normally; `close()` itself drops every
waiter, resolving exactly those registered with a timeout timer. -/
theorem c6_amended (st : Mdns.ScannerState) (hev : st.events = []) :
    (st.closing = true →
      (∀ (operationalId : List Nat) (nodeId : Nat) (t : Option ℚ) (ig : Bool),
        Mdns.findOperationalDeviceStart st operationalId nodeId t ig
          = .error (.implementationError
              "Cannot discover operational device because scanner is closing."))
      ∧ (∀ (identifier : Mdns.CommissionableDeviceIdentifiers) (t : Option ℚ) (ig : Bool),
          (Mdns.findCommissionableDevicesStart st identifier t ig).isOk)
      ∧ (∀ identifier : Mdns.CommissionableDeviceIdentifiers,
          (Mdns.findCommissionableDevicesContinuouslyStart st identifier).isOk))
    ∧ (Mdns.close st).closing = true
    ∧ (Mdns.close st).recordWaiters = []
    ∧ (∀ queryId w, alookup st.recordWaiters queryId = some w →
        (Mdns.ScanEvent.waiterResolved queryId ∈ (Mdns.close st).events ↔ w.hasTimer = true)) := by
  refine ⟨?_, ?_, ?_, ?_⟩
  · intro hclosing
    refine ⟨?_, ?_, ?_⟩
    · intro operationalId nodeId t ig
      simp [Mdns.findOperationalDeviceStart, hclosing]
    · intro identifier t ig
      unfold Mdns.findCommissionableDevicesStart
      split
      all_goals exact except_isOk_ite _ _ _
    · intro identifier
      simp [Mdns.findCommissionableDevicesContinuouslyStart, Except.isOk, Except.toBool]
  · unfold Mdns.close
    have hcl : ∀ (keys : List String) (s : Mdns.ScannerState),
        (Mdns.closeWaitersLoop keys s).closing = s.closing := by
      intro keys
      induction keys with
      | nil => intro s; rfl
      | cons k rest ih =>
        intro s
        simp only [Mdns.closeWaitersLoop]
        rw [ih, finishWaiter_closing]
    rw [hcl]
  · apply alookup_eq_none_all_imp_nil
    intro k
    unfold Mdns.close
    rw [closeWaitersLoop_alookup]
    by_cases hk : k ∈ (st.recordWaiters.map (fun p => p.1))
    · simp [hk]
    · simp only [hk, if_false]
      exact alookup_none_of_not_mem_keys st.recordWaiters k hk
  · intro queryId w hw
    unfold Mdns.close
    rw [closeWaitersLoop_mem_events]
    simp only [hev, List.not_mem_nil, false_or]
    constructor
    · intro ⟨_, w', hw', hT⟩
      rw [hw] at hw'
      rw [Option.some.inj hw']
      exact hT
    · intro hT
      exact ⟨mem_keys_of_alookup_isSome st.recordWaiters queryId (by simp [hw]),
        w, hw, hT⟩

/-- Scanner state for the C6 witness: closed, with one timed and one untimed
waiter. -/
def c6State : Mdns.ScannerState :=
  { closing := true
    recordWaiters := [("qa", ⟨true, true⟩), ("qb", ⟨false, true⟩)] }

/-- Claim C6 amended witness: the concrete closed scanner rejects operational
discovery, accepts commissionable discovery, and `close` resolves the timed
waiter and drops the untimed one. -/
theorem c6_amended_witness :
    Mdns.findOperationalDeviceStart c6State [18] 5 none false
        = .error (.implementationError
            "Cannot discover operational device because scanner is closing.")
    ∧ (Mdns.close c6State).recordWaiters = []
    ∧ (Mdns.ScanEvent.waiterResolved "qa" ∈ (Mdns.close c6State).events ↔ (true : Bool) = true)
    ∧ (Mdns.ScanEvent.waiterResolved "qb" ∈ (Mdns.close c6State).events ↔ (false : Bool) = true) := by
  have h := c6_amended c6State rfl
  exact ⟨(h.1 rfl).1 [18] 5 none false, h.2.2.1,
    h.2.2.2 "qa" ⟨true, true⟩ (by decide), h.2.2.2 "qb" ⟨false, true⟩ (by decide)⟩

/-! # Claim C7: known-answer suppression in the responder -/

theorem mem_filterKnownAnswers (knownAnswers : List Mdns.DnsRecord) :
    ∀ (records : List Mdns.DnsRecord) (r : Mdns.DnsRecord),
      r ∈ MdnsServer.filterKnownAnswers records knownAnswers
        ↔ (r ∈ records ∧ r ∉ knownAnswers) := by
  induction knownAnswers with
  | nil =>
    intro records r
    simp [MdnsServer.filterKnownAnswers]
  | cons ka rest ih =>
    intro records r
    simp only [MdnsServer.filterKnownAnswers, List.foldl_cons] at ih ⊢
    rw [ih (records.filter (fun x => x ≠ ka)) r]
    rw [List.mem_filter]
    simp only [decide_not, Bool.not_eq_eq_eq_not, Bool.not_true, decide_eq_false_iff_not,
      List.mem_cons]
    constructor
    · intro ⟨⟨hrec, hne⟩, hrest⟩
      exact ⟨hrec, fun hc => hc.elim hne hrest⟩
    · intro ⟨hrec, hnot⟩
      exact ⟨⟨hrec, fun hc => hnot (Or.inl hc)⟩, fun hc => hnot (Or.inr hc)⟩

theorem filterKnownAnswers_eq_nil (records knownAnswers : List Mdns.DnsRecord)
    (h : ∀ r ∈ records, r ∈ knownAnswers) :
    MdnsServer.filterKnownAnswers records knownAnswers = [] := by
  rw [List.eq_nil_iff_forall_not_mem]
  intro r hr
  obtain ⟨hrec, hnot⟩ := (mem_filterKnownAnswers knownAnswers records r).mp hr
  exact hnot (h r hrec)

theorem mem_of_mem_zip_filter_map (answers : List Mdns.DnsRecord)
    (times : List (Int × Nat)) (p : Mdns.DnsRecord × (Int × Nat) → Bool)
    (r : Mdns.DnsRecord) (h : r ∈ ((answers.zip times).filter p).map Prod.fst) :
    r ∈ answers := by
  obtain ⟨pair, hpair, hfst⟩ := List.mem_map.mp h
  have hmem := (List.mem_filter.mp hpair).1
  have hz := List.of_mem_zip hmem
  rw [← hfst]
  exact hz.1

/-- Claim C7: for every record set the responder answers from, every owned
record equal to one of the query's knownAnswers is omitted from both the
answers and the additional records of the planned response, and when every
candidate answer is suppressed this way no response is planned at all (no
datagram is sent for that record set). -/
theorem c7_known_answer_suppression (portRecords : List Mdns.DnsRecord)
    (queries : List Mdns.DnsQuery) (knownAnswers : List Mdns.DnsRecord)
    (recordLastSent : List (String × Nat)) (netInterface : String) (now : Nat) :
    (∀ plan, MdnsServer.respondToRecordSet portRecords queries knownAnswers recordLastSent
        netInterface now = some plan →
      ∀ ka ∈ knownAnswers, ka ∉ plan.answers ∧ ka ∉ plan.additionalRecords)
    ∧ ((∀ r ∈ (queries.map (fun q => MdnsServer.queryRecords q portRecords)).flatten,
          r ∈ knownAnswers) →
        MdnsServer.respondToRecordSet portRecords queries knownAnswers recordLastSent
          netInterface now = none) := by
  constructor
  · intro plan hplan ka hka
    have hkne : ¬(knownAnswers = []) := List.ne_nil_of_mem hka
    have hkaf : ∀ cands : List Mdns.DnsRecord,
        ka ∉ MdnsServer.filterKnownAnswers cands knownAnswers := by
      intro cands hc
      exact ((mem_filterKnownAnswers knownAnswers cands ka).mp hc).2 hka
    have hadds : ∀ adds : List Mdns.DnsRecord,
        ka ∉ (if ¬(adds = []) then MdnsServer.filterKnownAnswers adds knownAnswers
              else adds) := by
      intro adds
      split
      · exact hkaf adds
      · rename_i hcond
        rw [not_not] at hcond
        rw [hcond]
        exact List.not_mem_nil ka
    simp only [MdnsServer.respondToRecordSet, ne_eq, hkne, not_false_eq_true, if_true,
      true_and] at hplan
    split at hplan
    · exact Option.noConfusion hplan
    split at hplan
    · exact Option.noConfusion hplan
    repeat' split at hplan
    all_goals first
      | exact Option.noConfusion hplan
      | (rw [← Option.some.inj hplan]
         refine ⟨?_, ?_⟩ <;>
           first
           | exact hkaf _
           | (intro hc
              exact hkaf _ (mem_of_mem_zip_filter_map _ _ _ ka hc))
           | exact hadds _
           | exact List.not_mem_nil ka
           | simp_all)
  · intro hall
    by_cases hans : (queries.map (fun q => MdnsServer.queryRecords q portRecords)).flatten = []
    · simp [MdnsServer.respondToRecordSet, hans]
    · have hkne : ¬(knownAnswers = []) := by
        obtain ⟨r, hr⟩ := List.exists_mem_of_ne_nil _ hans
        exact List.ne_nil_of_mem (hall r hr)
      have hf : MdnsServer.filterKnownAnswers
          ((queries.map (fun q => MdnsServer.queryRecords q portRecords)).flatten)
          knownAnswers = [] :=
        filterKnownAnswers_eq_nil _ _ hall
      simp [MdnsServer.respondToRecordSet, hans, hkne, hf]

/-- The owned record of the C7 witness. -/
def c7Record : Mdns.DnsRecord :=
  ⟨"svc._matterc._udp.local", Mdns.DnsRecordType.PTR, 1, 120, .ptr "inst"⟩

/-- The matching question of the C7 witness. -/
def c7Query : Mdns.DnsQuery :=
  ⟨"svc._matterc._udp.local", 1, Mdns.DnsRecordType.PTR, false⟩

/-- Claim C7 witness: when the only candidate answer is among the known
answers, no response is planned. -/
theorem c7_known_answer_suppression_witness :
    MdnsServer.respondToRecordSet [c7Record] [c7Query] [c7Record] [] "eth0" 5000 = none :=
  (c7_known_answer_suppression [c7Record] [c7Query] [c7Record] [] "eth0" 5000).2 (by decide)

/-! # Claim C8: TLV object schema decode -/

namespace Tlv

/-- An element is known when it is context-tagged with a declared field id
(the characterization used to state the skip property). -/
def knownElement (fields : List FieldDef) (e : TlvElement) : Bool :=
  match e.tagId with
  | none => false
  | some id => (fields.find? (fun f => f.id = id)).isSome

end Tlv

theorem decodeElems_skip_unknown (fields : List Tlv.FieldDef) (elements : List Tlv.TlvElement) :
    ∀ acc, (∀ e ∈ elements, e.profile = none ∧ e.tagId ≠ none) →
      Tlv.decodeElems fields acc elements
        = Tlv.decodeElems fields acc (elements.filter (Tlv.knownElement fields)) := by
  induction elements with
  | nil => intro acc _; rfl
  | cons e rest ih =>
    intro acc hwt
    obtain ⟨hprof, htag⟩ := hwt e (List.mem_cons_self e rest)
    obtain ⟨id, hid⟩ := Option.ne_none_iff_exists'.mp htag
    have hrest : ∀ x ∈ rest, x.profile = none ∧ x.tagId ≠ none :=
      fun x hx => hwt x (List.mem_cons_of_mem e hx)
    cases hfind : fields.find? (fun f => f.id = id) with
    | none =>
      have hknown : Tlv.knownElement fields e = false := by
        simp [Tlv.knownElement, hid, hfind]
      simp only [List.filter_cons, hknown, if_false, Bool.false_eq_true]
      rw [show Tlv.decodeElems fields acc (e :: rest) = Tlv.decodeElems fields acc rest from by
        simp [Tlv.decodeElems, Tlv.decodeStep, hprof, hid, hfind]]
      exact ih acc hrest
    | some f =>
      have hknown : Tlv.knownElement fields e = true := by
        simp [Tlv.knownElement, hid, hfind]
      simp only [List.filter_cons, hknown, if_true]
      simp only [Tlv.decodeElems, Tlv.decodeStep, hprof, hid, hfind]
      simp only [ne_eq, not_false_eq_true, not_true_eq_false, if_false, reduceIte]
      split <;> first
        | rfl
        | exact ih _ hrest

theorem name_ne_of_mem_of_id_ne (fields : List Tlv.FieldDef) (f g : Tlv.FieldDef)
    (hf : f ∈ fields) (hg : g ∈ fields)
    (hnodup : (fields.map (fun x => x.name)).Nodup) (hid : g.id ≠ f.id) :
    g.name ≠ f.name := by
  intro hc
  exact hid (congrArg Tlv.FieldDef.id (List.inj_on_of_nodup_map hnodup hg hf hc))

theorem decodeStep_known (fields : List Tlv.FieldDef) (f g : Tlv.FieldDef)
    (acc : List (String × Tlv.FieldVal)) (e : Tlv.TlvElement) (id : Nat)
    (hprof : e.profile = none) (hid : e.tagId = some id)
    (hfind : fields.find? (fun x => x.id = id) = some g)
    (hgname : g.name ≠ f.name) :
    ∃ acc', Tlv.decodeStep fields acc e = .ok acc'
      ∧ alookup acc' f.name = alookup acc f.name := by
  simp only [Tlv.decodeStep, hprof, hid, hfind]
  simp only [ne_eq, not_false_eq_true, not_true_eq_false, if_false, reduceIte]
  split
  · split
    · exact ⟨_, rfl, alookup_mapSet_ne _ _ _ _ hgname⟩
    · exact ⟨_, rfl, alookup_mapSet_ne _ _ _ _ hgname⟩
  · exact ⟨_, rfl, alookup_mapSet_ne _ _ _ _ hgname⟩

theorem decodeElems_ok_lookup (fields : List Tlv.FieldDef) (f : Tlv.FieldDef)
    (hf : f ∈ fields) (hnodup : (fields.map (fun x => x.name)).Nodup)
    (elements : List Tlv.TlvElement) :
    ∀ acc, (∀ e ∈ elements, e.profile = none ∧ e.tagId ≠ none) →
      (∀ e ∈ elements, e.tagId ≠ some f.id) →
      ∃ r, Tlv.decodeElems fields acc elements = .ok r
        ∧ alookup r f.name = alookup acc f.name := by
  induction elements with
  | nil => intro acc _ _; exact ⟨acc, rfl, rfl⟩
  | cons e rest ih =>
    intro acc hwt hno
    obtain ⟨hprof, htag⟩ := hwt e (List.mem_cons_self e rest)
    obtain ⟨id, hid⟩ := Option.ne_none_iff_exists'.mp htag
    have hrest : ∀ x ∈ rest, x.profile = none ∧ x.tagId ≠ none :=
      fun x hx => hwt x (List.mem_cons_of_mem e hx)
    have hnorest : ∀ x ∈ rest, x.tagId ≠ some f.id :=
      fun x hx => hno x (List.mem_cons_of_mem e hx)
    have hidne : id ≠ f.id := by
      intro hc
      exact hno e (List.mem_cons_self e rest) (by rw [hid, hc])
    cases hfind : fields.find? (fun g => g.id = id) with
    | none =>
      obtain ⟨r, hr, hl⟩ := ih acc hrest hnorest
      refine ⟨r, ?_, hl⟩
      rw [show Tlv.decodeElems fields acc (e :: rest) = Tlv.decodeElems fields acc rest from by
        simp [Tlv.decodeElems, Tlv.decodeStep, hprof, hid, hfind]]
      exact hr
    | some g =>
      have hgmem : g ∈ fields := List.mem_of_find?_eq_some hfind
      have hgid : g.id = id := by
        have := List.find?_some hfind
        simpa using this
      have hgname : g.name ≠ f.name :=
        name_ne_of_mem_of_id_ne fields f g hf hgmem hnodup (by rw [hgid]; exact hidne)
      obtain ⟨acc', hs, hl'⟩ := decodeStep_known fields f g acc e id hprof hid hfind hgname
      obtain ⟨r, hr, hl⟩ := ih acc' hrest hnorest
      refine ⟨r, ?_, by rw [hl, hl']⟩
      simp only [Tlv.decodeElems]
      rw [hs]
      exact hr

theorem fallbackStep_lookup_ne (res : List (String × Tlv.FieldVal)) (g : Tlv.FieldDef)
    (name : String) (h : g.name ≠ name) :
    alookup (Tlv.fallbackStep res g) name = alookup res name := by
  unfold Tlv.fallbackStep
  split
  · rfl
  · split
    · rfl
    · split
      · rfl
      · exact alookup_mapSet_ne _ _ _ _ h

theorem fallbackStep_eq_of_fb_none (res : List (String × Tlv.FieldVal)) (g : Tlv.FieldDef)
    (h : g.fallback = none) : Tlv.fallbackStep res g = res := by
  unfold Tlv.fallbackStep
  split
  · rfl
  · split
    · rfl
    · rw [h]

theorem fallbackStep_sets (res : List (String × Tlv.FieldVal)) (f : Tlv.FieldDef) (v : Int)
    (hopt : ¬f.optional) (hrep : ¬f.repeated) (hfb : f.fallback = some v)
    (hres : alookup res f.name = none) :
    Tlv.fallbackStep res f = mapSet res f.name (.single v) := by
  unfold Tlv.fallbackStep
  rw [if_neg hopt, hres, hfb]
  simp [hrep]

theorem applyFallbacks_preserve (name : String) :
    ∀ (fields : List Tlv.FieldDef) (res : List (String × Tlv.FieldVal)),
      (∀ g ∈ fields, g.name = name → g.fallback = none) →
      alookup (Tlv.applyFallbacks fields res) name = alookup res name := by
  intro fields
  induction fields with
  | nil => intro res _; rfl
  | cons g rest ih =>
    intro res h
    simp only [Tlv.applyFallbacks, List.foldl_cons] at ih ⊢
    rw [ih _ (fun x hx => h x (List.mem_cons_of_mem g hx))]
    by_cases hgn : g.name = name
    · rw [fallbackStep_eq_of_fb_none res g (h g (List.mem_cons_self g rest) hgn)]
    · exact fallbackStep_lookup_ne res g name hgn

theorem applyFallbacks_sets (f : Tlv.FieldDef) (v : Int) :
    ∀ (fields : List Tlv.FieldDef) (res : List (String × Tlv.FieldVal)),
      f ∈ fields → (fields.map (fun x => x.name)).Nodup →
      ¬f.optional → ¬f.repeated → f.fallback = some v →
      alookup res f.name = none →
      alookup (Tlv.applyFallbacks fields res) f.name = some (.single v) := by
  intro fields
  induction fields with
  | nil => intro res hmem; exact absurd hmem (List.not_mem_nil f)
  | cons g rest ih =>
    intro res hmem hnodup hopt hrep hfb hres
    simp only [List.map_cons, List.nodup_cons] at hnodup
    simp only [Tlv.applyFallbacks, List.foldl_cons] at ih ⊢
    rcases List.mem_cons.mp hmem with hgf | hfr
    · subst hgf
      rw [fallbackStep_sets res f v hopt hrep hfb hres]
      have hpres : ∀ x ∈ rest, x.name = f.name → x.fallback = none := by
        intro x hx hxn
        exact absurd (hxn ▸ (List.mem_map.mpr ⟨x, hx, rfl⟩)) hnodup.1
      have hpre := applyFallbacks_preserve f.name rest (mapSet res f.name (.single v)) hpres
      simp only [Tlv.applyFallbacks] at hpre
      rw [hpre]
      exact alookup_mapSet_self _ _ _
    · have hgname : g.name ≠ f.name := by
        intro hc
        exact hnodup.1 (hc ▸ (List.mem_map.mpr ⟨f, hfr, rfl⟩))
      have hstep : alookup (Tlv.fallbackStep res g) f.name = none := by
        rw [fallbackStep_lookup_ne res g f.name hgname]
        exact hres
      exact ih (Tlv.fallbackStep res g) hfr hnodup.2 hopt hrep hfb hstep

theorem validateField_error_shape (f : Tlv.FieldDef) (d : Option Tlv.FieldVal)
    (e : Tlv.TlvError) (h : Tlv.validateField f d = .error e) :
    ∃ m, e = Tlv.TlvError.validationError m := by
  unfold Tlv.validateField at h
  repeat' split at h
  all_goals first
    | exact ⟨_, (Except.error.inj h).symm⟩
    | exact absurd h (by simp)

theorem validateFields_error (fields : List Tlv.FieldDef) (f : Tlv.FieldDef) :
    ∀ result, f ∈ fields → ¬f.optional → alookup result f.name = none →
      ∃ m, Tlv.validateFields fields result
        = .error (Tlv.TlvError.validationError m) := by
  induction fields with
  | nil => intro result hmem; exact absurd hmem (List.not_mem_nil f)
  | cons g rest ih =>
    intro result hmem hopt hres
    simp only [Tlv.validateFields]
    cases hv : Tlv.validateField g (alookup result g.name) with
    | error e =>
      obtain ⟨m, hm⟩ := validateField_error_shape g _ e hv
      exact ⟨m, by rw [hm]⟩
    | ok u =>
      rcases List.mem_cons.mp hmem with hgf | hfr
      · subst hgf
        rw [hres] at hv
        unfold Tlv.validateField at hv
        rw [if_neg hopt] at hv
        exact absurd hv (by simp)
      · exact ih result hfr hopt hres

/-- Claim C8: for the TLV object schema, (1) unknown context-tagged fields are
skipped on decode: the element loop computes the same result as if they were
absent, causing no error; (2) decoding a well-tagged stream that misses a
mandatory field without fallback fails with a ValidationError; (3) a mandatory
non-repeated field with a declared fallback that is absent from the stream is
populated with the fallback by `decodeTlvInternalValue` and passes its field
validation instead of failing. -/
theorem c8_object_schema (fields : List Tlv.FieldDef) (elements : List Tlv.TlvElement)
    (f : Tlv.FieldDef) (hwt : ∀ e ∈ elements, e.profile = none ∧ e.tagId ≠ none)
    (hf : f ∈ fields) (hnodup : (fields.map (fun x => x.name)).Nodup)
    (hopt : ¬f.optional) (hno : ∀ e ∈ elements, e.tagId ≠ some f.id) :
    (∀ acc, Tlv.decodeElems fields acc elements
      = Tlv.decodeElems fields acc (elements.filter (Tlv.knownElement fields)))
    ∧ (f.fallback = none →
        ∃ m, Tlv.decode fields elements = .error (Tlv.TlvError.validationError m))
    ∧ (∀ v, f.fallback = some v → ¬f.repeated →
        ∃ r, Tlv.decodeTlvInternalValue fields elements = .ok r
          ∧ alookup r f.name = some (.single v)
          ∧ Tlv.validateField f (alookup r f.name) = .ok ()) := by
  refine ⟨fun acc => decodeElems_skip_unknown fields elements acc hwt, ?_, ?_⟩
  · intro hfb
    obtain ⟨r0, hr0, hl0⟩ := decodeElems_ok_lookup fields f hf hnodup elements [] hwt hno
    have hlf : alookup (Tlv.applyFallbacks fields r0) f.name = none := by
      rw [applyFallbacks_preserve f.name fields r0 ?_]
      · rw [hl0]; rfl
      · intro g hg hgn
        have : g = f := List.inj_on_of_nodup_map hnodup hg hf hgn
        rw [this, hfb]
    obtain ⟨m, hm⟩ := validateFields_error fields f (Tlv.applyFallbacks fields r0) hf hopt hlf
    refine ⟨m, ?_⟩
    unfold Tlv.decode Tlv.decodeTlvInternalValue
    rw [hr0]
    simp only
    rw [hm]
  · intro v hfb hrep
    obtain ⟨r0, hr0, hl0⟩ := decodeElems_ok_lookup fields f hf hnodup elements [] hwt hno
    refine ⟨Tlv.applyFallbacks fields r0, ?_, ?_, ?_⟩
    · unfold Tlv.decodeTlvInternalValue
      rw [hr0]
    · exact applyFallbacks_sets f v fields r0 hf hnodup hopt hrep hfb (by rw [hl0]; rfl)
    · rw [applyFallbacks_sets f v fields r0 hf hnodup hopt hrep hfb (by rw [hl0]; rfl)]
      unfold Tlv.validateField
      simp [hrep]

/-- Fields used by the C8 witness: mandatory `x`, mandatory `y` with fallback
7, optional `z`. -/
def c8Fields : List Tlv.FieldDef :=
  [{ name := "x", id := 1 }, { name := "y", id := 2, fallback := some 7 },
   { name := "z", id := 3, optional := true }]

/-- A well-tagged stream carrying `x` and one unknown context tag 99. -/
def c8Elements : List Tlv.TlvElement :=
  [{ tagId := some 1, value := 42 }, { tagId := some 99, value := 5 }]

/-- Claim C8 witness: on the concrete schema, decoding skips the unknown tag
99 and populates `y` with its fallback 7. -/
theorem c8_object_schema_witness :
    Tlv.decodeElems c8Fields [] c8Elements
        = Tlv.decodeElems c8Fields [] (c8Elements.filter (Tlv.knownElement c8Fields))
      ∧ ∃ r, Tlv.decodeTlvInternalValue c8Fields c8Elements = .ok r
          ∧ alookup r "y" = some (.single 7)
          ∧ Tlv.validateField { name := "y", id := 2, fallback := some 7 }
              (alookup r "y") = .ok () := by
  have h := c8_object_schema c8Fields c8Elements
    { name := "y", id := 2, fallback := some 7 }
    (by decide) (by decide) (by decide) (by decide) (by decide)
  exact ⟨h.1 [], h.2.2 7 rfl (by decide)⟩

/-! # Claim C9: stable priority sort of returned addresses -/

/-- Priority class following the specification's wording: IPv6 addresses with
prefix `fd` first (0), then IPv6 link-local `fe80:` addresses (1), then other
IPv6 addresses (2), then IPv4 addresses (3). -/
def addressPriority (e : Mdns.MatterServerRecordWithExpire) : Nat :=
  if Mdns.isIPv6 e.ip then
    if strStartsWith e.ip "fd" then 0
    else if strStartsWith e.ip "fe80:" then 1
    else 2
  else 3

theorem addressPriority_lt_four (e : Mdns.MatterServerRecordWithExpire) :
    addressPriority e < 4 := by
  unfold addressPriority
  repeat' split
  all_goals omega

theorem strStartsWith_fd_chars (s : String) (h : strStartsWith s "fd" = true) :
    ∃ t, s.data = 'f' :: 'd' :: t := by
  unfold strStartsWith at h
  have hfd : "fd".data = ['f', 'd'] := rfl
  rw [hfd] at h
  cases hs : s.data with
  | nil => rw [hs] at h; simp [List.isPrefixOf] at h
  | cons a as =>
    cases as with
    | nil => rw [hs] at h; simp [List.isPrefixOf] at h
    | cons b bs =>
      rw [hs] at h
      simp [List.isPrefixOf] at h
      obtain ⟨h1, h2⟩ := h
      subst h1
      subst h2
      exact ⟨bs, rfl⟩

theorem fd_not_fe80 (s : String) (h : strStartsWith s "fd" = true) :
    strStartsWith s "fe80:" = false := by
  obtain ⟨t, ht⟩ := strStartsWith_fd_chars s h
  unfold strStartsWith
  have hfe : "fe80:".data = ['f', 'e', '8', '0', ':'] := rfl
  rw [hfe, ht]
  simp [List.isPrefixOf]

theorem serverEntryCompare_lt_iff (a b : Mdns.MatterServerRecordWithExpire) :
    Mdns.serverEntryCompare a b < 0 ↔ addressPriority a < addressPriority b := by
  unfold Mdns.serverEntryCompare addressPriority
  by_cases ha6 : Mdns.isIPv6 a.ip = true <;> by_cases hb6 : Mdns.isIPv6 b.ip = true
  · by_cases haf : strStartsWith a.ip "fd" = true <;>
      by_cases hbf : strStartsWith b.ip "fd" = true
    · have h1 := fd_not_fe80 _ haf
      have h2 := fd_not_fe80 _ hbf
      simp [ha6, hb6, haf, hbf, h1, h2]
    · have h1 := fd_not_fe80 _ haf
      by_cases hbfe : strStartsWith b.ip "fe80:" = true <;>
        simp [ha6, hb6, haf, hbf, h1, hbfe]
    · have h2 := fd_not_fe80 _ hbf
      by_cases hafe : strStartsWith a.ip "fe80:" = true <;>
        simp [ha6, hb6, haf, hbf, h2, hafe]
    · by_cases hafe : strStartsWith a.ip "fe80:" = true <;>
        by_cases hbfe : strStartsWith b.ip "fe80:" = true <;>
        simp [ha6, hb6, haf, hbf, hafe, hbfe]
  · by_cases haf : strStartsWith a.ip "fd" = true <;>
      by_cases hafe : strStartsWith a.ip "fe80:" = true <;>
      simp [ha6, hb6, haf, hafe]
  · by_cases hbf : strStartsWith b.ip "fd" = true <;>
      by_cases hbfe : strStartsWith b.ip "fe80:" = true <;>
      simp [ha6, hb6, hbf, hbfe]
  · simp [ha6, hb6]

theorem sortInsert_append (x : Mdns.MatterServerRecordWithExpire)
    (B : List Mdns.MatterServerRecordWithExpire)
    (hB : ∀ y ∈ B, ¬ addressPriority y < addressPriority x) :
    ∀ A : List Mdns.MatterServerRecordWithExpire,
      (∀ y ∈ A, addressPriority y < addressPriority x) →
        Mdns.sortInsert x (A ++ B) = A ++ x :: B := by
  intro A
  induction A with
  | nil =>
    intro _
    simp only [List.nil_append]
    cases B with
    | nil => rfl
    | cons y ys =>
      have hc : ¬ Mdns.serverEntryCompare y x < 0 := fun hc =>
        hB y (List.mem_cons_self y ys) ((serverEntryCompare_lt_iff y x).mp hc)
      unfold Mdns.sortInsert
      rw [if_neg hc]
  | cons a as ih =>
    intro hA
    have hc : Mdns.serverEntryCompare a x < 0 :=
      (serverEntryCompare_lt_iff a x).mpr (hA a (List.mem_cons_self a as))
    have ih2 := ih (fun y hy => hA y (List.mem_cons_of_mem a hy))
    show Mdns.sortInsert x (a :: (as ++ B)) = a :: (as ++ x :: B)
    unfold Mdns.sortInsert
    rw [if_pos hc, ih2]

theorem sortInsert_perm (x : Mdns.MatterServerRecordWithExpire)
    (l : List Mdns.MatterServerRecordWithExpire) :
    (Mdns.sortInsert x l).Perm (x :: l) := by
  induction l with
  | nil => exact List.Perm.refl _
  | cons y ys ih =>
    unfold Mdns.sortInsert
    split
    · exact (ih.cons y).trans (List.Perm.swap x y ys)
    · exact List.Perm.refl _

theorem sortServerEntries_perm (l : List Mdns.MatterServerRecordWithExpire) :
    (Mdns.sortServerEntries l).Perm l := by
  induction l with
  | nil => exact List.Perm.refl _
  | cons x xs ih =>
    exact (sortInsert_perm x (Mdns.sortServerEntries xs)).trans (ih.cons x)

/-- The sublist of `l` whose entries have priority `k`, in input order. -/
def priorityClass (k : Nat) (l : List Mdns.MatterServerRecordWithExpire) :
    List Mdns.MatterServerRecordWithExpire :=
  l.filter (fun e => addressPriority e == k)

theorem mem_priorityClass {k : Nat} {l : List Mdns.MatterServerRecordWithExpire}
    {y : Mdns.MatterServerRecordWithExpire} (hy : y ∈ priorityClass k l) :
    addressPriority y = k := by
  have h := List.mem_filter.mp hy
  simpa using h.2

theorem sortServerEntries_classes (l : List Mdns.MatterServerRecordWithExpire) :
    Mdns.sortServerEntries l =
      priorityClass 0 l ++ priorityClass 1 l ++ priorityClass 2 l ++ priorityClass 3 l := by
  induction l with
  | nil => rfl
  | cons x xs ih =>
    have hpr4 := addressPriority_lt_four x
    show Mdns.sortInsert x (Mdns.sortServerEntries xs) = _
    rw [ih]
    rcases (by omega :
        addressPriority x = 0 ∨ addressPriority x = 1 ∨ addressPriority x = 2 ∨
          addressPriority x = 3) with h | h | h | h
    · have hB : ∀ y ∈ priorityClass 0 xs ++ priorityClass 1 xs ++ priorityClass 2 xs ++
          priorityClass 3 xs, ¬ addressPriority y < addressPriority x := by
        intro y _
        rw [h]
        omega
      have hstep := sortInsert_append x _ hB []
        (fun y hy => absurd hy (List.not_mem_nil y))
      simp only [List.nil_append] at hstep
      rw [hstep]
      simp [priorityClass, List.filter_cons, h]
    · have hB : ∀ y ∈ priorityClass 1 xs ++ (priorityClass 2 xs ++ priorityClass 3 xs),
          ¬ addressPriority y < addressPriority x := by
        intro y hy
        rw [h]
        rcases List.mem_append.mp hy with h1 | h23
        · have := mem_priorityClass h1; omega
        · rcases List.mem_append.mp h23 with h2 | h3
          · have := mem_priorityClass h2; omega
          · have := mem_priorityClass h3; omega
      have hA : ∀ y ∈ priorityClass 0 xs, addressPriority y < addressPriority x := by
        intro y hy
        have := mem_priorityClass hy
        rw [h]
        omega
      rw [List.append_assoc, List.append_assoc, sortInsert_append x _ hB _ hA]
      simp [priorityClass, List.filter_cons, h]
    · have hB : ∀ y ∈ priorityClass 2 xs ++ priorityClass 3 xs,
          ¬ addressPriority y < addressPriority x := by
        intro y hy
        rw [h]
        rcases List.mem_append.mp hy with h2 | h3
        · have := mem_priorityClass h2; omega
        · have := mem_priorityClass h3; omega
      have hA : ∀ y ∈ priorityClass 0 xs ++ priorityClass 1 xs,
          addressPriority y < addressPriority x := by
        intro y hy
        rw [h]
        rcases List.mem_append.mp hy with h0 | h1
        · have := mem_priorityClass h0; omega
        · have := mem_priorityClass h1; omega
      rw [List.append_assoc, sortInsert_append x _ hB _ hA]
      simp [priorityClass, List.filter_cons, h]
    · have hB : ∀ y ∈ priorityClass 3 xs,
          ¬ addressPriority y < addressPriority x := by
        intro y hy
        have := mem_priorityClass hy
        rw [h]
        omega
      have hA : ∀ y ∈ priorityClass 0 xs ++ priorityClass 1 xs ++ priorityClass 2 xs,
          addressPriority y < addressPriority x := by
        intro y hy
        rw [h]
        rcases List.mem_append.mp hy with h01 | h2
        · rcases List.mem_append.mp h01 with h0 | h1
          · have := mem_priorityClass h0; omega
          · have := mem_priorityClass h1; omega
        · have := mem_priorityClass h2; omega
      rw [sortInsert_append x _ hB _ hA]
      simp [priorityClass, List.filter_cons, h]

/-- Claim C9: `sortServerEntries` produces a stable permutation of its input
ordered by the priority IPv6-fd, IPv6 link-local fe80, other IPv6, IPv4: the
result is exactly the concatenation of the four priority classes, each in
input order, and is a permutation of the input. -/
theorem c9_stable_priority_sort (l : List Mdns.MatterServerRecordWithExpire) :
    Mdns.sortServerEntries l =
        priorityClass 0 l ++ priorityClass 1 l ++ priorityClass 2 l ++ priorityClass 3 l
      ∧ (Mdns.sortServerEntries l).Perm l :=
  ⟨sortServerEntries_classes l, sortServerEntries_perm l⟩
